import Mathlib

/-!
Verification of the receipt-ingestion service (tyushoAI).

This file is a shallow embedding, in Lean 4, of the parts of the Python
source that the verified properties talk about:

* `src/utils/helpers.py`     — `check_usage_limit`
* `src/routers/records.py`   — `upload_receipt`, `update_record`,
                               `delete_record`, `bulk_delete_records`
* `src/routers/admin.py`     — `delete_user`
* `src/services/gemini_service.py` — `analyze_with_gemini_retry`
* `src/services/storage_service.py` — `upload_to_gcs`, `delete_from_gcs`

`src/main.py` contains near-identical duplicates of these functions; where
they differ (the `source: "web"` record field, the `PDF_SUPPORT` guard) the
difference is irrelevant to every property proved here, and the embedding
follows the router/service modules.

Modelling conventions:

* Firestore documents are typed structures holding exactly the fields the
  embedded code reads or writes; collections are association lists keyed by
  document id.  `set` is upsert, `delete` removes the key, a dotted-field
  `update` with `Increment` rewrites the field (creating the containing map
  when missing, as Firestore does, and treating a missing counter as 0).
* `time.time()*1000` is a millisecond counter `clock` in the system state;
  `time.sleep(0.001)` advances it by one.  All other operations are
  modelled as instantaneous, which is the worst case for id collisions.
* External calls that can raise in the source (temp-file write,
  `upload_to_gcs`, Gemini analysis, Firestore `set`/`update`, and the
  `os.remove(temp_path)` that sits inside the `try` after the quota
  increment) receive their outcome from a per-file oracle carried by the
  input; calls whose source catches every exception internally and cannot
  raise (`compress_image`, `convert_pdf_to_images`, `delete_from_gcs`)
  are total.
* Blob storage is a set of object names in the state, plus an append-only
  audit log `gcsDeletes` of performed blob deletions, so that "no blob
  delete was invoked" is a statement about the state.
* `persistLog` is an append-only audit log of the record ids handed to
  Firestore `set` during ingestion, used to state id-uniqueness.
-/

/-- Association-list lookup, keyed by strings (Firestore document id). -/
def alookup {α : Type} : List (String × α) → String → Option α
  | [], _ => none
  | (k, v) :: t, key => if key = k then some v else alookup t key

/-- Association-list upsert: Firestore `document(k).set(v)`. -/
def aupsert {α : Type} : List (String × α) → String → α → List (String × α)
  | [], k, v => [(k, v)]
  | (k', v') :: t, k, v => if k = k' then (k, v) :: t else (k', v') :: aupsert t k v

/-- Association-list removal: Firestore `document(k).delete()`. -/
def aremove {α : Type} : List (String × α) → String → List (String × α)
  | [], _ => []
  | (k', v') :: t, k => if k = k' then t else (k', v') :: aremove t k

/-- Association-list in-place modification of an existing entry
(Firestore `document(k).update(...)`; a no-op when the document is absent —
the claims proved below only exercise it on existing documents). -/
def aupdate {α : Type} (f : α → α) : List (String × α) → String → List (String × α)
  | [], _ => []
  | (k', v') :: t, k => if k = k' then (k', f v') :: t else (k', v') :: aupdate f t k

/-- The `subscription` map of a user document.  Only the two fields the
embedded code reads (`used`, `limit`) are modelled; `Option` marks a field
that may be absent from the document. -/
structure SubData where
  used : Option Int
  limit : Option Int
deriving DecidableEq

/-- A Firestore user document (the fields read by the embedded code). -/
structure UserDoc where
  subscription : Option SubData
deriving DecidableEq

/-- `user_data.get("subscription", {}).get("used", 0)` -/
def UserDoc.usedVal (d : UserDoc) : Int :=
  ((d.subscription).bind SubData.used).getD 0

/-- `user_data.get("subscription", {}).get("limit", 10)` -/
def UserDoc.limitVal (d : UserDoc) : Int :=
  ((d.subscription).bind SubData.limit).getD 10

/-- One receipt record, as stored in the `records` subcollection
(`item` after `item.update({...})` in `upload_receipt`); `created_at`
(a server-side timestamp) is not modelled. -/
structure RecordDoc where
  date : String
  vendor_name : String
  total_amount : Int
  image_url : String
  id : String
  is_pdf : Bool
  pdf_images : List String
  original_filename : String
  category : String
  source : String
deriving DecidableEq

/-- The Firestore database: the `users` collection and, per user, the
`records` subcollection. -/
structure DB where
  users : List (String × UserDoc)
  records : List (String × List (String × RecordDoc))
deriving DecidableEq

/-- The records subcollection of one user (empty when never written). -/
def DB.recordsOf (db : DB) (u : String) : List (String × RecordDoc) :=
  (alookup db.records u).getD []

/-- `db.collection("users").document(u).collection("records").document(rid).get()` -/
def DB.getRecord (db : DB) (u rid : String) : Option RecordDoc :=
  alookup (db.recordsOf u) rid

/-- `...collection("records").document(rid).set(doc)` -/
def DB.setRecord (db : DB) (u rid : String) (doc : RecordDoc) : DB :=
  { db with records := aupsert db.records u (aupsert (db.recordsOf u) rid doc) }

/-- `...collection("records").document(rid).delete()` -/
def DB.delRecord (db : DB) (u rid : String) : DB :=
  { db with records := aupsert db.records u (aremove (db.recordsOf u) rid) }

/-- `document(u).update({"subscription.used": firestore.Increment(n)})`:
rewrites `subscription.used`, creating the `subscription` map when absent
and treating a missing counter as 0, leaving `subscription.limit` alone. -/
def DB.incUsed (db : DB) (u : String) (n : Int) : DB :=
  { db with
    users := aupdate (fun d =>
      UserDoc.mk (some (SubData.mk (some (d.usedVal + n))
        (d.subscription.bind SubData.limit)))) db.users u }

/-- The `used` counter of a user as the quota code reads it (0 when the
user or the field is absent). -/
def DB.usedOf (db : DB) (u : String) : Int :=
  ((alookup db.users u).map UserDoc.usedVal).getD 0

/-- `check_usage_limit` (src/utils/helpers.py, lines 17–29): false when the
user document does not exist, otherwise `used < limit` with defaults
`used = 0`, `limit = 10`. -/
def check_usage_limit (db : DB) (u_id : String) : Bool :=
  match alookup db.users u_id with
  | none => false
  | some d => decide (d.usedVal < d.limitVal)

/-! ## Python numeric-string semantics

`str(int)` and `int(str)` as the embedded code uses them: decimal
rendering, and parsing that strips whitespace, accepts one optional sign,
and allows single underscores between digits (ASCII digits only; the
exotic parts of CPython's `int()` — unicode digits, other numeric bases —
are outside every input the properties mention). -/

/-- The decimal value of an ASCII digit character. -/
def charToDigit? (c : Char) : Option Nat :=
  if '0' ≤ c ∧ c ≤ '9' then some (c.toNat - '0'.toNat) else none

/-- Accumulating decimal parse over characters; fails on a non-digit. -/
def parseDigitsGo (acc : Nat) : List Char → Option Nat
  | [] => some acc
  | c :: t =>
    match charToDigit? c with
    | some d => parseDigitsGo (10 * acc + d) t
    | none => none

/-- Decimal parse of a non-empty all-digit character list. -/
def parseDigits (cs : List Char) : Option Nat :=
  if cs.isEmpty then none else parseDigitsGo 0 cs

/-- Fuel-driven decimal rendering (structural, so that concrete instances
evaluate inside `decide`): prepends the digits of `n` to `acc`. -/
def natToCharsAux : Nat → Nat → List Char → List Char
  | _, 0, acc => acc
  | n, fuel + 1, acc =>
    if n < 10 then Nat.digitChar n :: acc
    else natToCharsAux (n / 10) fuel (Nat.digitChar (n % 10) :: acc)

/-- Digit characters of a natural number, most significant first
(the character list of Python's `str(n)` for `n ≥ 0`). -/
def natToChars (n : Nat) : List Char :=
  natToCharsAux n (n + 1) []

/-- Python `str(n)` for a natural number. -/
def natToString (n : Nat) : String := String.mk (natToChars n)

/-- Python `str(n)` for an integer. -/
def intToString (n : Int) : String :=
  if n < 0 then "-" ++ natToString n.natAbs else natToString n.natAbs

/-- A Python value as it reaches `str(...)` in the embedded code: either an
`int` or a `str`. -/
inductive PyVal where
  | int (n : Int)
  | str (s : String)

/-- Python `str(v)`. -/
def pyStr : PyVal → String
  | .int n => intToString n
  | .str s => s

/-- Python `s.strip()` on a character list. -/
def pyStrip (cs : List Char) : List Char :=
  ((cs.dropWhile Char.isWhitespace).reverse.dropWhile Char.isWhitespace).reverse

/-- Underscore placement check of Python `int()`, scanning after a first
character `prev`: every `_` must sit between two digits. -/
def uOkAfter (prev : Char) : List Char → Bool
  | [] => true
  | c :: rest =>
    if c = '_' then
      match rest with
      | [] => false
      | d :: rest' => prev.isDigit && d.isDigit && uOkAfter d rest'
    else uOkAfter c rest

/-- Underscore placement check of Python `int()` for the digit body. -/
def underscoresOk : List Char → Bool
  | [] => true
  | c :: cs => if c = '_' then false else uOkAfter c cs

/-- Python `int()` on an unsigned digit body (underscores allowed singly
between digits). -/
def pyIntOfChars (cs : List Char) : Option Nat :=
  if underscoresOk cs then parseDigits (cs.filter (fun c => c ≠ '_')) else none

/-- Sign handling of Python `int()`, after stripping. -/
def pyIntOfStripped : List Char → Option Int
  | [] => none
  | c :: rest =>
    if c = '-' then (pyIntOfChars rest).map (fun n => -(n : Int))
    else if c = '+' then (pyIntOfChars rest).map (fun n => (n : Int))
    else (pyIntOfChars (c :: rest)).map (fun n => (n : Int))

/-- Python `int(s)` for a decimal string: strip whitespace, one optional
sign, digit body. -/
def pyIntParse (s : String) : Option Int :=
  pyIntOfStripped (pyStrip s.toList)

/-- `int(str(x).replace(",", "").replace("¥", "").strip())`
(src/routers/records.py, line 167): `none` models the `ValueError`. -/
def normalize_total_amount (v : PyVal) : Option Int :=
  pyIntParse (String.mk (pyStrip
    (((pyStr v).toList.filter (fun c => c ≠ ',')).filter (fun c => c ≠ '¥'))))

example : normalize_total_amount (.str "¥1,234") = some 1234 := by decide
example : normalize_total_amount (.str "abc") = none := by decide
example : normalize_total_amount (.str " -56 ") = some (-56) := by decide
example : normalize_total_amount (.str "1_2") = some 12 := by decide
example : normalize_total_amount (.str "1__2") = none := by decide
example : normalize_total_amount (.str "_12") = none := by decide
example : normalize_total_amount (.str "12_") = none := by decide
example : normalize_total_amount (.str "") = none := by decide
example : normalize_total_amount (.int 1234) = some 1234 := by decide

/-! ## Round-trip: `int(str(n)) = n`

These lemmas justify the idempotence half of the amount-normalization
property and the injectivity of generated record ids. -/

theorem natToCharsAux_eq (fuel : Nat) : ∀ (n : Nat) (acc : List Char),
    n < fuel → n ≠ 0 →
    natToCharsAux n fuel acc = ((Nat.digits 10 n).map Nat.digitChar).reverse ++ acc := by
  induction fuel with
  | zero => intro n acc h _; omega
  | succ f ih =>
    intro n acc h hn
    rw [natToCharsAux]
    rw [Nat.digits_def' (by norm_num : (1:Nat) < 10) (Nat.pos_of_ne_zero hn)]
    by_cases h10 : n < 10
    · rw [if_pos h10, Nat.mod_eq_of_lt h10, Nat.div_eq_of_lt h10]
      simp
    · rw [if_neg h10]
      have hd : n / 10 < f := by
        have := Nat.div_lt_self (Nat.pos_of_ne_zero hn) (by norm_num : 1 < 10)
        omega
      have hd0 : n / 10 ≠ 0 := by
        have : 10 ≤ n := le_of_not_lt h10
        have := Nat.div_pos this (by norm_num : 0 < 10)
        omega
      rw [ih (n / 10) _ hd hd0]
      simp

theorem foldr_eq_ofDigits (L : List Nat) :
    L.foldr (fun d a => 10 * a + d) 0 = Nat.ofDigits 10 L := by
  induction L with
  | nil => simp [Nat.ofDigits_nil]
  | cons d t ih => simp [Nat.ofDigits_cons, ih]; omega

theorem charToDigit?_digitChar (d : Nat) (h : d < 10) :
    charToDigit? (Nat.digitChar d) = some d := by
  interval_cases d <;> decide

theorem digitChar_props (d : Nat) (h : d < 10) :
    (Nat.digitChar d).isDigit = true ∧ Nat.digitChar d ≠ '_' ∧
    (Nat.digitChar d).isWhitespace = false ∧ Nat.digitChar d ≠ '-' ∧
    Nat.digitChar d ≠ '+' ∧ Nat.digitChar d ≠ ',' ∧ Nat.digitChar d ≠ '¥' := by
  interval_cases d <;> decide

theorem parseDigitsGo_map (L : List Nat) : ∀ acc : Nat, (∀ d ∈ L, d < 10) →
    parseDigitsGo acc (L.map Nat.digitChar) =
      some (L.foldl (fun a d => 10 * a + d) acc) := by
  induction L with
  | nil => intro acc _; rfl
  | cons d t ih =>
    intro acc h
    have hd : d < 10 := h d (by simp)
    simp only [List.map_cons, parseDigitsGo, charToDigit?_digitChar d hd,
      List.foldl_cons]
    exact ih _ (fun x hx => h x (by simp [hx]))

theorem natToChars_mem (n : Nat) (c : Char) (hc : c ∈ natToChars n) :
    ∃ d, d < 10 ∧ c = Nat.digitChar d := by
  by_cases hn : n = 0
  · subst hn
    simp only [natToChars, natToCharsAux] at hc
    norm_num at hc
    exact ⟨0, by norm_num, hc⟩
  · rw [natToChars, natToCharsAux_eq (n + 1) n [] (Nat.lt_succ_self n) hn] at hc
    simp only [List.append_nil, List.mem_reverse, List.mem_map] at hc
    obtain ⟨d, hd, rfl⟩ := hc
    exact ⟨d, Nat.digits_lt_base (by norm_num) hd, rfl⟩

theorem parseDigits_natToChars (n : Nat) : parseDigits (natToChars n) = some n := by
  by_cases hn : n = 0
  · subst hn; decide
  · rw [natToChars, natToCharsAux_eq (n + 1) n [] (Nat.lt_succ_self n) hn]
    have hne : Nat.digits 10 n ≠ [] := Nat.digits_ne_nil_iff_ne_zero.mpr hn
    rw [List.append_nil, ← List.map_reverse]
    rw [parseDigits]
    have hne2 : (Nat.digits 10 n).reverse.map Nat.digitChar ≠ [] := by
      simp [hne]
    rw [if_neg (by simpa using hne2)]
    rw [parseDigitsGo_map _ 0
      (fun d hd => Nat.digits_lt_base (by norm_num) (List.mem_reverse.mp hd))]
    simp only [List.foldl_reverse]
    have h2 := foldr_eq_ofDigits (Nat.digits 10 n)
    rw [Nat.ofDigits_digits] at h2
    rw [h2]

theorem dropWhile_eq_self_of {p : Char → Bool} (cs : List Char)
    (h : ∀ c ∈ cs, p c = false) : cs.dropWhile p = cs := by
  cases cs with
  | nil => rfl
  | cons c t => simp [List.dropWhile_cons, h c (by simp)]

theorem pyStrip_eq_self (cs : List Char)
    (h : ∀ c ∈ cs, c.isWhitespace = false) : pyStrip cs = cs := by
  unfold pyStrip
  rw [dropWhile_eq_self_of cs h,
    dropWhile_eq_self_of _ (fun c hc => h c (List.mem_reverse.mp hc)),
    List.reverse_reverse]

theorem char_isDigit_ne_underscore (c : Char) (h : c.isDigit = true) : c ≠ '_' := by
  intro heq; subst heq; simp at h

theorem uOkAfter_of_digits (cs : List Char) : ∀ prev : Char,
    (∀ c ∈ cs, c.isDigit = true) → uOkAfter prev cs = true := by
  induction cs with
  | nil => intro prev _; rfl
  | cons c t ih =>
    intro prev h
    have hc : c.isDigit = true := h c (by simp)
    rw [uOkAfter.eq_def]
    simp only []
    rw [if_neg (char_isDigit_ne_underscore c hc)]
    exact ih c (fun x hx => h x (by simp [hx]))

theorem underscoresOk_of_digits (cs : List Char)
    (h : ∀ c ∈ cs, c.isDigit = true) : underscoresOk cs = true := by
  cases cs with
  | nil => rfl
  | cons c t =>
    rw [underscoresOk, if_neg (char_isDigit_ne_underscore c (h c (by simp)))]
    exact uOkAfter_of_digits t c (fun x hx => h x (by simp [hx]))

theorem filter_underscore_of_digits (cs : List Char)
    (h : ∀ c ∈ cs, c.isDigit = true) : cs.filter (fun c => c ≠ '_') = cs := by
  apply List.filter_eq_self.mpr
  intro c hc
  exact decide_eq_true (char_isDigit_ne_underscore c (h c hc))

theorem natToChars_digits (n : Nat) : ∀ c ∈ natToChars n, c.isDigit = true := by
  intro c hc
  obtain ⟨d, hd, rfl⟩ := natToChars_mem n c hc
  exact (digitChar_props d hd).1

theorem pyIntOfChars_natToChars (n : Nat) :
    pyIntOfChars (natToChars n) = some n := by
  rw [pyIntOfChars, underscoresOk_of_digits _ (natToChars_digits n), if_pos rfl,
    filter_underscore_of_digits _ (natToChars_digits n), parseDigits_natToChars]

theorem natToChars_ne_nil (n : Nat) : natToChars n ≠ [] := by
  intro h
  have := parseDigits_natToChars n
  rw [h] at this
  simp [parseDigits] at this

theorem toList_natToString (n : Nat) : (natToString n).toList = natToChars n := rfl

theorem pyIntParse_intToString (n : Int) : pyIntParse (intToString n) = some n := by
  rw [pyIntParse, intToString]
  by_cases hn : n < 0
  · rw [if_pos hn]
    have htl : ("-" ++ natToString n.natAbs).toList = '-' :: natToChars n.natAbs := rfl
    rw [htl, pyStrip_eq_self _ (by
      intro c hc
      rcases List.mem_cons.mp hc with h | h
      · subst h; decide
      · obtain ⟨d, hd, rfl⟩ := natToChars_mem _ c h
        exact (digitChar_props d hd).2.2.1)]
    rw [pyIntOfStripped, if_pos rfl, pyIntOfChars_natToChars]
    show some (-(n.natAbs : Int)) = some n
    congr 1
    omega
  · rw [if_neg hn]
    obtain ⟨c, t, hct⟩ : ∃ c t, natToChars n.natAbs = c :: t := by
      cases h : natToChars n.natAbs with
      | nil => exact absurd h (natToChars_ne_nil _)
      | cons c t => exact ⟨c, t, rfl⟩
    obtain ⟨d, hd, hcd⟩ := natToChars_mem n.natAbs c (by rw [hct]; simp)
    rw [toList_natToString, pyStrip_eq_self _ (by
      intro x hx
      obtain ⟨e, he, rfl⟩ := natToChars_mem _ x hx
      exact (digitChar_props e he).2.2.1)]
    rw [hct, pyIntOfStripped,
      if_neg (by rw [hcd]; exact (digitChar_props d hd).2.2.2.1),
      if_neg (by rw [hcd]; exact (digitChar_props d hd).2.2.2.2.1),
      ← hct, pyIntOfChars_natToChars]
    show some ((n.natAbs : Int)) = some n
    congr 1
    omega

theorem natToString_injective : Function.Injective natToString := by
  intro a b hab
  have ha := parseDigits_natToChars a
  have hb := parseDigits_natToChars b
  have : natToChars a = natToChars b := by
    have := congrArg String.toList hab
    rwa [toList_natToString, toList_natToString] at this
  rw [this, hb] at ha
  exact Option.some_injective _ ha.symm

/-! ## System state and blob storage -/

/-- Mutable state touched by the embedded endpoints: the Firestore
database, the millisecond clock behind `int(time.time() * 1000)`, the set
of stored blob object names, and two append-only audit logs — the blob
deletions performed by `delete_from_gcs` and the record ids handed to
Firestore `set` during ingestion. -/
structure SysState where
  db : DB
  clock : Nat
  blobs : List String
  gcsDeletes : List String
  persistLog : List String
deriving DecidableEq

/-- `config.BUCKET_NAME` (src/config.py, line 22). -/
def BUCKET_NAME : String := "my-receipt-app-storage-01"

/-- The public URL returned by `upload_to_gcs` for an object name. -/
def gcsUrl (name : String) : String :=
  "https://storage.googleapis.com/" ++ BUCKET_NAME ++ "/" ++ name

/-- `upload_to_gcs` (src/services/storage_service.py, lines 9–14): store
the object and return its public URL. -/
def upload_to_gcs (st : SysState) (name : String) : SysState × String :=
  ({ st with blobs := if name ∈ st.blobs then st.blobs else st.blobs ++ [name] },
   gcsUrl name)

/-- Python `pat in s` for a non-empty pattern. -/
def strContains (s pat : String) : Bool := (s.splitOn pat).length != 1

/-- Python `s.split(pat)[-1]`. -/
def lastSplit (s pat : String) : String := (s.splitOn pat).getLastD s

/-- `delete_from_gcs` (src/services/storage_service.py, lines 16–30):
derive the object name from the URL (everything after `BUCKET_NAME + "/"`),
delete it when it exists, catch everything; returns whether a blob was
deleted.  Deletions are also recorded in the `gcsDeletes` audit log. -/
def delete_from_gcs (st : SysState) (image_url : String) : SysState × Bool :=
  if strContains image_url BUCKET_NAME then
    let blob_name := lastSplit image_url (BUCKET_NAME ++ "/")
    if blob_name ∈ st.blobs then
      ({ st with blobs := st.blobs.erase blob_name,
                 gcsDeletes := st.gcsDeletes ++ [blob_name] }, true)
    else (st, false)
  else (st, false)

/-! ## Extraction client (`analyze_with_gemini_retry`) -/

/-- One line item extracted by the model (the fields the prompt asks for;
the response is schemaless, callers read the fields defensively). -/
structure ExtractedItem where
  date : String
  vendor_name : String
  total_amount : Int
deriving DecidableEq

/-- A parsed Gemini response: the model may return a single JSON object or
an array (`data_list if isinstance(data_list, list) else [data_list]`). -/
inductive GeminiValue where
  | obj (item : ExtractedItem)
  | arr (items : List ExtractedItem)
deriving DecidableEq

/-- Result of `analyze_with_gemini_retry`: the parsed value, the final
`raise Exception(...)` message, or Python's implicit `None` when
`max_retries == 0` makes the loop body never run. -/
inductive RetryOutcome where
  | success (v : GeminiValue)
  | failure (msg : String)
  | pyNone
deriving DecidableEq

/-- The retry loop of `analyze_with_gemini_retry`
(src/services/gemini_service.py, lines 14–48).  `oracle n` is the outcome
of attempt `n` (upload + poll + generate + parse, collapsed: `.error e`
is `str(e)` of whatever that attempt raised).  The second component of the
result collects the `time.sleep(wait_time)` durations, in order. -/
def retryAux (oracle : Nat → Except String GeminiValue) (max_retries : Nat) :
    Nat → Nat → RetryOutcome × List Nat
  | _, 0 => (.pyNone, [])
  | attempt, fuel + 1 =>
    match oracle attempt with
    | .ok v => (.success v, [])
    | .error e =>
      if attempt < max_retries - 1 then
        let r := retryAux oracle max_retries (attempt + 1) fuel
        (r.1, 2 ^ attempt :: r.2)
      else
        (.failure ("Gemini API解析に失敗しました（" ++ natToString max_retries
          ++ "回試行）: " ++ e), [])

/-- `analyze_with_gemini_retry(file_path, max_retries)`: run the attempt
loop `for attempt in range(max_retries)`. -/
def analyze_with_gemini_retry (oracle : Nat → Except String GeminiValue)
    (max_retries : Nat) : RetryOutcome × List Nat :=
  retryAux oracle max_retries 0 max_retries

/-! ## Ingestion pipeline (`upload_receipt`) -/

/-- One uploaded file, together with the outcomes of this file's fallible
external calls (the oracle of the run): writing the temp file,
`upload_to_gcs`, the rasterized PDF page names produced by
`convert_pdf_to_images` (which catches internally and cannot raise),
the Gemini analysis result, an optional index at which Firestore `set`
raises, the outcome of the usage-counter `update`, and the outcome of
`os.remove(temp_path)` — which sits inside the `try` *after* the counter
increment, so its failure produces an error entry for a file whose
increment already happened. -/
structure FileInput where
  filename : String
  save : Except String Unit
  upload : Except String Unit
  pdfPages : List String
  extract : Except String GeminiValue
  setFail : Option (Nat × String)
  increment : Except String Unit
  remove : Except String Unit

/-- Per-file entry of the batch response. -/
inductive FileStatus where
  | success (records_count : Nat)
  | error (msg : String)
deriving DecidableEq

/-- `{"filename": ..., "status": ..., ...}` in `all_results`. -/
structure FileResult where
  filename : String
  status : FileStatus
deriving DecidableEq

/-- The `{"results": ..., "summary": {...}}` body of a 200 upload reply. -/
structure BatchResponse where
  results : List FileResult
  total : Nat
  success : Nat
  errors : Nat
deriving DecidableEq

/-- An upload call either raises an `HTTPException` before the loop or
returns the batch response. -/
inductive UploadOutcome where
  | reject (status : Nat) (detail : String)
  | batch (resp : BatchResponse)
deriving DecidableEq

/-- Rightmost extension candidate: the suffix starting at the last `.`. -/
def extSearch : List Char → Option (List Char)
  | [] => none
  | c :: rest =>
    match extSearch rest with
    | some e => some e
    | none => if c = '.' then some (c :: rest) else none

/-- Python `os.path.splitext(s)[1]` for a bare filename: the suffix from
the last dot, empty when there is none or when every character before it
is itself a dot. -/
def pySplitextExt (s : String) : String :=
  let cs := s.toList
  match extSearch cs with
  | none => ""
  | some e =>
    let pre := cs.take (cs.length - e.length)
    if pre.any (fun c => c ≠ '.') then String.mk e else ""

/-- Python `s.endswith(t)`. -/
def strEndsWith (s t : String) : Bool :=
  List.isPrefixOf t.toList.reverse s.toList.reverse

/-- Python `s.lower()` (ASCII case folding, which covers the `.pdf` and
image-extension comparisons it is used for). -/
def pyLower (s : String) : String := String.mk (s.toList.map Char.toLower)

example : pySplitextExt "receipt.PDF" = ".PDF" := by decide
example : pySplitextExt "a.b.jpg" = ".jpg" := by decide
example : pySplitextExt ".bashrc" = "" := by decide
example : pySplitextExt "noext" = "" := by decide
example : strEndsWith (pyLower "Receipt.PDF") ".pdf" = true := by decide

/-- The record document written for one extracted item
(src/routers/records.py, lines 86–100). -/
def mkRecord (item : ExtractedItem) (public_url doc_id : String) (is_pdf : Bool)
    (pdf_image_urls : List String) (original_filename : String) : RecordDoc :=
  { date := item.date
    vendor_name := item.vendor_name
    total_amount := item.total_amount
    image_url := public_url
    id := doc_id
    is_pdf := is_pdf
    pdf_images := if is_pdf then pdf_image_urls else []
    original_filename := original_filename
    category := "その他"
    source := "web" }

/-- Firestore `set` of one record plus the audit-log append. -/
def commitRecord (st : SysState) (u doc_id : String) (doc : RecordDoc) : SysState :=
  { st with db := st.db.setRecord u doc_id doc,
            persistLog := st.persistLog ++ [doc_id] }

/-- The per-item persistence loop of `upload_receipt` (lines 86–100): for
each extracted item, generate `doc_id = str(int(time.time()*1000))`, sleep
one millisecond, then `set` the document — unless the oracle says this
`set` raises, which aborts the file (items already written stay written). -/
def persistItems (u public_url : String) (is_pdf : Bool)
    (pdf_image_urls : List String) (original_filename : String)
    (setFail : Option (Nat × String)) :
    List ExtractedItem → Nat → SysState → SysState × Option String
  | [], _, st => (st, none)
  | item :: rest, k, st =>
    let doc_id := natToString st.clock
    let st1 : SysState := { st with clock := st.clock + 1 }
    match setFail with
    | some (j, msg) =>
      if j = k then (st1, some msg)
      else persistItems u public_url is_pdf pdf_image_urls original_filename
        setFail rest (k + 1)
        (commitRecord st1 u doc_id
          (mkRecord item public_url doc_id is_pdf pdf_image_urls original_filename))
    | none =>
      persistItems u public_url is_pdf pdf_image_urls original_filename
        setFail rest (k + 1)
        (commitRecord st1 u doc_id
          (mkRecord item public_url doc_id is_pdf pdf_image_urls original_filename))

/-- `data_list if isinstance(data_list, list) else [data_list]` -/
def itemsOf : GeminiValue → List ExtractedItem
  | .arr l => l
  | .obj i => [i]

/-- `len(data_list) if isinstance(data_list, list) else 1` -/
def countOf : GeminiValue → Nat
  | .arr l => l.length
  | .obj _ => 1

/-- Steps 5–6 of one upload iteration (src/routers/records.py, lines
84–114): normalize the extraction result to a list, persist each item,
increment the usage counter, then `os.remove(temp_path)` and report
success with the item count
(`len(data_list) if isinstance(data_list, list) else 1`).  A raising
`set` or counter update turns into this file's error entry, keeping the
records already written; a raising `os.remove` — still inside the `try`,
after the increment — also turns into an error entry but keeps *both* the
records and the increment. -/
def persistAndCount (u public_url : String) (is_pdf : Bool)
    (pdf_image_urls : List String) (original_filename : String)
    (setFail : Option (Nat × String)) (increment : Except String Unit)
    (removeTemp : Except String Unit) (gval : GeminiValue) (st : SysState) :
    FileResult × SysState :=
  let pres := persistItems u public_url is_pdf pdf_image_urls
    original_filename setFail (itemsOf gval) 0 st
  match pres.2 with
  | some msg => (⟨original_filename, .error msg⟩, pres.1)
  | none =>
    match increment with
    | .error e => (⟨original_filename, .error e⟩, pres.1)
    | .ok _ =>
      let stI := { pres.1 with db := (pres.1).db.incUsed u 1 }
      match removeTemp with
      | .error e => (⟨original_filename, .error e⟩, stI)
      | .ok _ => (⟨original_filename, .success (countOf gval)⟩, stI)

/-- One iteration of the upload loop (src/routers/records.py, lines
40–125): save the temp file, classify, compress (cannot raise, keeps the
path), upload the primary blob, rasterize PDF pages, analyze, persist the
extracted items, increment the quota counter, remove the temp file.  Any
step that raises turns into this file's `{"status": "error"}` entry; state
changes already performed stay. -/
def processFile (u : String) (f : FileInput) (st : SysState) :
    FileResult × SysState :=
  let original_filename := f.filename
  let file_ext := pySplitextExt original_filename
  let safe_filename := natToString st.clock ++ file_ext
  match f.save with
  | .error e => (⟨original_filename, .error e⟩, st)
  | .ok _ =>
    let is_pdf := strEndsWith (pyLower original_filename) ".pdf"
    match f.upload with
    | .error e => (⟨original_filename, .error e⟩, st)
    | .ok _ =>
      let gcs_file_name := "receipts/" ++ safe_filename
      let stUp := (upload_to_gcs st gcs_file_name).1
      let public_url := (upload_to_gcs st gcs_file_name).2
      let stPdf := if is_pdf then
          f.pdfPages.foldl (fun s p => (upload_to_gcs s ("pdf_images/" ++ p)).1) stUp
        else stUp
      let pdf_image_urls := if is_pdf then
          f.pdfPages.map (fun p => gcsUrl ("pdf_images/" ++ p))
        else []
      match f.extract with
      | .error e => (⟨original_filename, .error e⟩, stPdf)
      | .ok gval =>
        persistAndCount u public_url is_pdf pdf_image_urls original_filename
          f.setFail f.increment f.remove gval stPdf

/-- `for idx, file in enumerate(files)`: files are processed in order,
each inside its own `try`/`except`. -/
def uploadLoop (u : String) : List FileInput → SysState → List FileResult × SysState
  | [], st => ([], st)
  | f :: fs, st =>
    let pr := processFile u f st
    let rest := uploadLoop u fs pr.2
    (pr.1 :: rest.1, rest.2)

/-- `len([r for r in all_results if r['status'] == 'success'])` -/
def countSuccess (rs : List FileResult) : Nat :=
  (rs.filter (fun r => match r.status with
    | .success _ => true
    | .error _ => false)).length

/-- `len([r for r in all_results if r['status'] == 'error'])` -/
def countErrors (rs : List FileResult) : Nat :=
  (rs.filter (fun r => match r.status with
    | .success _ => false
    | .error _ => true)).length

/-- Whether an external-call outcome is a success. -/
def exceptOk {ε α : Type} : Except ε α → Bool
  | .ok _ => true
  | .error _ => false

/-- Whether the per-item `set` loop over `n` items completes without the
oracle-injected failure: the loop raises exactly when the failing index
falls within `0..n-1`. -/
def persistOk (sf : Option (Nat × String)) (n : Nat) : Bool :=
  match sf with
  | none => true
  | some (j, _) => decide (n ≤ j)

/-- Whether this file's run reaches and completes the quota increment:
every step up to and including the counter `update` succeeds (the
subsequent `os.remove` plays no part here). -/
def fileIncrements (f : FileInput) : Bool :=
  exceptOk f.save && exceptOk f.upload &&
    (match f.extract with
     | .error _ => false
     | .ok gval => persistOk f.setFail (itemsOf gval).length) &&
    exceptOk f.increment

/-- Whether this file's run completes every step, `os.remove` included,
producing a success entry. -/
def fileSucceeds (f : FileInput) : Bool :=
  fileIncrements f && exceptOk f.remove

/-- Number of files in a batch whose runs perform the quota increment. -/
def countIncrements (files : List FileInput) : Nat :=
  (files.filter (fun f => fileIncrements f)).length

/-- Number of files in a batch whose runs produce a success entry. -/
def countSucceeding (files : List FileInput) : Nat :=
  (files.filter (fun f => fileSucceeds f)).length

/-- `upload_receipt` (src/routers/records.py, lines 21–140): reject an
empty batch with 400, reject with 403 when `check_usage_limit` fails,
otherwise process every file and report the aggregate. -/
def upload_receipt (u : String) (files : List FileInput) (st : SysState) :
    UploadOutcome × SysState :=
  if files.isEmpty then
    (.reject 400 "ファイルが選択されていません", st)
  else if check_usage_limit st.db u then
    let res := uploadLoop u files st
    (.batch { results := res.1, total := files.length,
              success := countSuccess res.1, errors := countErrors res.1 }, res.2)
  else
    (.reject 403 "月間上限に達しました。プランをアップグレードしてください。", st)

/-! ## Record mutation endpoints -/

/-- The request body of `PUT /api/records/{id}`: each key is optional;
`total_amount` may arrive as a number or a currency-formatted string
(the source applies `str(...)` before parsing). -/
structure UpdateData where
  date : Option String
  vendor_name : Option String
  total_amount : Option PyVal
  category : Option String

/-- Result of `update_record`: the 200 reply (carrying the normalized
amount when one was supplied) or a raised `HTTPException`. -/
inductive UpdateOutcome where
  | updated (updated_total_amount : Option Int)
  | httpError (status : Nat) (detail : String)
deriving DecidableEq

/-- The merged document after `doc_ref.update(update_data)`. -/
def applyRecordUpdate (doc : RecordDoc) (data : UpdateData)
    (amount : Option Int) : RecordDoc :=
  { doc with
    date := data.date.getD doc.date
    vendor_name := data.vendor_name.getD doc.vendor_name
    total_amount := amount.getD doc.total_amount
    category := data.category.getD doc.category }

/-- `update_record` (src/routers/records.py, lines 142–188): 404 when the
record is absent; 400 when a supplied `total_amount` fails to normalize
(`except ValueError`; this handler re-raises `HTTPException` unchanged, so
the 400/404 reach the caller); otherwise merge the supplied fields. -/
def update_record (u record_id : String) (data : UpdateData) (st : SysState) :
    UpdateOutcome × SysState :=
  match st.db.getRecord u record_id with
  | none => (.httpError 404 "レコードが見つかりません", st)
  | some doc =>
    let amountRes : Except Unit (Option Int) :=
      match data.total_amount with
      | none => .ok none
      | some v =>
        match normalize_total_amount v with
        | some n => .ok (some n)
        | none => .error ()
    match amountRes with
    | .error _ => (.httpError 400 "金額は数値で指定してください", st)
    | .ok amt? =>
      (.updated amt?,
       { st with db := st.db.setRecord u record_id (applyRecordUpdate doc data amt?) })

/-- Result of `delete_record`: the 200 reply or a raised `HTTPException`. -/
inductive DeleteOutcome where
  | ok (msg : String)
  | httpError (status : Nat) (detail : String)
deriving DecidableEq

/-- State after the two blob-cleanup steps of a record deletion
(`delete_from_gcs` on the primary image when `image_url` is truthy, then on
every PDF page image when `is_pdf` and `pdf_images` are truthy). -/
def deleteRecordBlobs (st : SysState) (rec : RecordDoc) : SysState :=
  let st1 := if rec.image_url ≠ "" then (delete_from_gcs st rec.image_url).1 else st
  if rec.is_pdf ∧ rec.pdf_images ≠ [] then
    rec.pdf_images.foldl (fun s url => (delete_from_gcs s url).1) st1
  else st1

/-- `delete_record` (src/routers/records.py, lines 190–225).  NOTE: this
handler's `try` has only `except Exception`, no `except HTTPException:
raise`, so the `HTTPException(404)` raised for a missing record is caught
and re-raised as a 500 (`str(e)` of a FastAPI `HTTPException` is
`"404: <detail>"`). -/
def delete_record (u record_id : String) (st : SysState) :
    DeleteOutcome × SysState :=
  match st.db.getRecord u record_id with
  | none =>
    (.httpError 500 ("削除に失敗しました: " ++ "404: レコードが見つかりません"), st)
  | some rec =>
    let st2 := deleteRecordBlobs st rec
    let st3 := { st2 with db := st2.db.delRecord u record_id }
    let st4 := { st3 with db := st3.db.incUsed u (-1) }
    (.ok "削除しました", st4)

/-- The loop of `bulk_delete_records` (src/routers/records.py, lines
238–261): an existing record is blob-cleaned, deleted and counted in
`deleted_count`; a non-existent record is silently skipped —
`failed_count` grows only when a datastore/storage call raises, and the
embedded datastore operations are total, so it stays 0. -/
def bulkDeleteLoop (u : String) :
    List String → SysState → Nat → Nat → Nat × Nat × SysState
  | [], st, deleted, failed => (deleted, failed, st)
  | rid :: rest, st, deleted, failed =>
    match st.db.getRecord u rid with
    | some rec =>
      let st2 := deleteRecordBlobs st rec
      let st3 := { st2 with db := st2.db.delRecord u rid }
      bulkDeleteLoop u rest st3 (deleted + 1) failed
    | none => bulkDeleteLoop u rest st deleted failed

/-- The `{"deleted": ..., "failed": ...}` body of a bulk-delete reply. -/
structure BulkDeleteResult where
  deleted : Nat
  failed : Nat
deriving DecidableEq

/-- Result of `bulk_delete_records`. -/
inductive BulkOutcome where
  | result (r : BulkDeleteResult)
  | httpError (status : Nat) (detail : String)
deriving DecidableEq

/-- `bulk_delete_records` (src/routers/records.py, lines 227–273): 400 on
an empty id list; otherwise run the loop and decrement the usage counter
by `deleted_count` when positive. -/
def bulk_delete_records (u : String) (record_ids : List String)
    (st : SysState) : BulkOutcome × SysState :=
  if record_ids.isEmpty then
    (.httpError 400 "削除するレコードが指定されていません", st)
  else
    let res := bulkDeleteLoop u record_ids st 0 0
    let st2 := if res.1 > 0 then
        { res.2.2 with db := (res.2.2).db.incUsed u (-(res.1 : Int)) }
      else res.2.2
    (.result ⟨res.1, res.2.1⟩, st2)

/-! ## Admin user deletion -/

/-- Result of `delete_user`. -/
inductive AdminOutcome where
  | ok (msg : String)
  | httpError (status : Nat) (detail : String)
deriving DecidableEq

/-- `delete_user` (src/routers/admin.py, lines 106–124; `require_admin` is
resolved by the HTTP layer before the body runs): refuse to delete
`"admin"`, 404 when the user is absent, otherwise delete every document of
the `records` subcollection and then the user document.  No blob artifact
is touched — the handler never calls `delete_from_gcs`. -/
def delete_user (user_id : String) (st : SysState) : AdminOutcome × SysState :=
  if user_id = "admin" then
    (.httpError 403 "管理者アカウントは削除できません", st)
  else
    match alookup st.db.users user_id with
    | none => (.httpError 404 "ユーザーが見つかりません", st)
    | some _ =>
      (.ok "ユーザーを削除しました",
       { st with db := { users := aremove st.db.users user_id,
                         records := aupsert st.db.records user_id [] } })

/-! ## Association-list lemmas -/

theorem alookup_aupsert_self {α : Type} (l : List (String × α)) (k : String) (v : α) :
    alookup (aupsert l k v) k = some v := by
  induction l with
  | nil => simp [aupsert, alookup]
  | cons p t ih =>
    obtain ⟨k', v'⟩ := p
    by_cases h : k = k'
    · simp [aupsert, h, alookup]
    · simp only [aupsert, if_neg h, alookup]
      exact ih

theorem alookup_aupsert_ne {α : Type} (l : List (String × α)) (k k' : String) (v : α)
    (h : k' ≠ k) : alookup (aupsert l k v) k' = alookup l k' := by
  induction l with
  | nil => simp [aupsert, alookup, if_neg h]
  | cons p t ih =>
    obtain ⟨k0, v0⟩ := p
    by_cases h0 : k = k0
    · subst h0
      simp [aupsert, alookup, if_neg h]
    · simp only [aupsert, if_neg h0, alookup]
      by_cases h1 : k' = k0
      · simp [h1]
      · rw [if_neg h1, if_neg h1]
        exact ih

theorem alookup_aremove_ne {α : Type} (l : List (String × α)) (k k' : String)
    (h : k' ≠ k) : alookup (aremove l k) k' = alookup l k' := by
  induction l with
  | nil => simp [aremove]
  | cons p t ih =>
    obtain ⟨k0, v0⟩ := p
    by_cases h0 : k = k0
    · subst h0
      simp [aremove, alookup, if_neg h]
    · simp only [aremove, if_neg h0, alookup]
      by_cases h1 : k' = k0
      · simp [h1]
      · rw [if_neg h1, if_neg h1]
        exact ih

theorem mem_keys_of_alookup {α : Type} (l : List (String × α)) (k : String)
    (v : α) (h : alookup l k = some v) : k ∈ l.map Prod.fst := by
  induction l with
  | nil => simp [alookup] at h
  | cons p t ih =>
    obtain ⟨k0, v0⟩ := p
    simp only [alookup] at h
    by_cases h0 : k = k0
    · subst h0; simp
    · rw [if_neg h0] at h
      simp only [List.map_cons, List.mem_cons]
      exact Or.inr (ih h)

theorem alookup_aremove_self {α : Type} (l : List (String × α)) (k : String)
    (h : (l.map Prod.fst).Nodup) : alookup (aremove l k) k = none := by
  induction l with
  | nil => simp [aremove, alookup]
  | cons p t ih =>
    obtain ⟨k0, v0⟩ := p
    simp only [List.map_cons, List.nodup_cons] at h
    by_cases h0 : k = k0
    · subst h0
      have hrem : aremove ((k, v0) :: t) k = t := by simp [aremove]
      rw [hrem]
      cases ht : alookup t k with
      | none => rfl
      | some v => exact absurd (mem_keys_of_alookup t k v ht) h.1
    · simp only [aremove, if_neg h0, alookup]
      exact ih h.2

theorem alookup_aupdate_self {α : Type} (f : α → α) (l : List (String × α))
    (k : String) : alookup (aupdate f l k) k = (alookup l k).map f := by
  induction l with
  | nil => simp [aupdate, alookup]
  | cons p t ih =>
    obtain ⟨k0, v0⟩ := p
    by_cases h0 : k = k0
    · simp [aupdate, h0, alookup]
    · simp only [aupdate, if_neg h0, alookup]
      exact ih

/-! ## Claim theorems -/

/-- C2: for every user id, `check_usage_limit` returns true iff the user
exists and `used < limit` for that user's subscription (fields read with
their defaults); for a non-existent user it returns false. -/
theorem c2_check_usage_limit_semantics (db : DB) (u : String) :
    (check_usage_limit db u = true ↔
      ∃ d, alookup db.users u = some d ∧ d.usedVal < d.limitVal) ∧
    (alookup db.users u = none → check_usage_limit db u = false) := by
  constructor
  · cases h : alookup db.users u with
    | none =>
      simp only [check_usage_limit, h]
      constructor
      · intro hfalse; cases hfalse
      · rintro ⟨d, hd, _⟩; cases hd
    | some d =>
      simp only [check_usage_limit, h, decide_eq_true_eq]
      constructor
      · intro hlt; exact ⟨d, rfl, hlt⟩
      · rintro ⟨d', hd', hlt⟩
        cases hd'
        exact hlt
  · intro h
    simp only [check_usage_limit, h]

/-- C2 witness: a user with `used = 3 < limit = 10` passes the check, a
non-existent user fails it. -/
theorem c2_check_usage_limit_semantics_witness :
    check_usage_limit ⟨[("u1", ⟨some ⟨some 3, some 10⟩⟩)], []⟩ "u1" = true ∧
    check_usage_limit ⟨[("u1", ⟨some ⟨some 3, some 10⟩⟩)], []⟩ "ghost" = false := by
  constructor
  · exact (c2_check_usage_limit_semantics ⟨[("u1", ⟨some ⟨some 3, some 10⟩⟩)], []⟩
      "u1").1.mpr ⟨⟨some ⟨some 3, some 10⟩⟩, by decide, by decide⟩
  · exact (c2_check_usage_limit_semantics ⟨[("u1", ⟨some ⟨some 3, some 10⟩⟩)], []⟩
      "ghost").2 (by decide)

/-- C10: an existing user whose document lacks a subscription entry (or
whose subscription lacks the `used`/`limit` fields) is treated as
`used = 0`, `limit = 10`, so the quota check passes and a non-empty batch
from that user is admitted (not rejected). -/
theorem c10_missing_subscription_defaults (st : SysState) (u : String)
    (d : UserDoc) (files : List FileInput)
    (hu : alookup st.db.users u = some d)
    (hsub : d.subscription = none ∨ d.subscription = some ⟨none, none⟩) :
    check_usage_limit st.db u = true ∧
    (files ≠ [] → ∃ resp st', upload_receipt u files st = (.batch resp, st')) := by
  have hcheck : check_usage_limit st.db u = true := by
    simp only [check_usage_limit, hu]
    rcases hsub with h | h <;>
      simp [UserDoc.usedVal, UserDoc.limitVal, h]
  refine ⟨hcheck, fun hne => ?_⟩
  have hemp : files.isEmpty = false := by
    cases files with
    | nil => exact absurd rfl hne
    | cons f fs => rfl
  simp only [upload_receipt, hemp, Bool.false_eq_true, if_false, hcheck, if_true]
  exact ⟨_, _, rfl⟩

/-- C10 witness: a user document with no `subscription` map passes the
check and a one-file batch is admitted. -/
theorem c10_missing_subscription_defaults_witness :
    check_usage_limit (DB.mk [("u2", ⟨none⟩)] []) "u2" = true ∧
    (∃ resp st', upload_receipt "u2"
      [⟨"a.jpg", .ok (), .ok (), [], .ok (.arr []), none, .ok (), .ok ()⟩]
      ⟨DB.mk [("u2", ⟨none⟩)] [], 0, [], [], []⟩ = (.batch resp, st')) := by
  have h := c10_missing_subscription_defaults
    ⟨DB.mk [("u2", ⟨none⟩)] [], 0, [], [], []⟩ "u2" ⟨none⟩
    [⟨"a.jpg", .ok (), .ok (), [], .ok (.arr []), none, .ok (), .ok ()⟩]
    (by decide) (Or.inl rfl)
  exact ⟨h.1, h.2 (by intro hx; cases hx)⟩

/-- C1: when the user's subscription has `used ≥ limit`, a non-empty batch
upload is rejected wholesale with the 403 quota-exceeded error, the state
is returned unchanged (zero files processed, quota counter untouched). -/
theorem c1_quota_gate_rejects_batch (st : SysState) (u : String) (d : UserDoc)
    (files : List FileInput) (hne : files ≠ [])
    (hu : alookup st.db.users u = some d)
    (hlim : d.limitVal ≤ d.usedVal) :
    upload_receipt u files st =
      (.reject 403 "月間上限に達しました。プランをアップグレードしてください。", st) := by
  have hemp : files.isEmpty = false := by
    cases files with
    | nil => exact absurd rfl hne
    | cons f fs => rfl
  have hcheck : check_usage_limit st.db u = false := by
    simp only [check_usage_limit, hu, decide_eq_false_iff_not, not_lt]
    exact hlim
  simp only [upload_receipt, hemp, Bool.false_eq_true, if_false, hcheck]

/-- C1 witness: the spec's scenario — `limit = 10`, `used = 10`, a 3-file
batch — is rejected with 403 and the state (hence the quota counter) is
unchanged. -/
theorem c1_quota_gate_rejects_batch_witness :
    upload_receipt "u1"
      [⟨"a.jpg", .ok (), .ok (), [], .ok (.arr []), none, .ok (), .ok ()⟩,
       ⟨"b.jpg", .ok (), .ok (), [], .ok (.arr []), none, .ok (), .ok ()⟩,
       ⟨"c.jpg", .ok (), .ok (), [], .ok (.arr []), none, .ok (), .ok ()⟩]
      ⟨DB.mk [("u1", ⟨some ⟨some 10, some 10⟩⟩)] [], 0, [], [], []⟩ =
    (.reject 403 "月間上限に達しました。プランをアップグレードしてください。",
     ⟨DB.mk [("u1", ⟨some ⟨some 10, some 10⟩⟩)] [], 0, [], [], []⟩) := by
  exact c1_quota_gate_rejects_batch
    ⟨DB.mk [("u1", ⟨some ⟨some 10, some 10⟩⟩)] [], 0, [], [], []⟩ "u1"
    ⟨some ⟨some 10, some 10⟩⟩ _ (by intro hx; cases hx) (by decide) (by decide)

theorem mk_toList (s : String) : String.mk s.toList = s := rfl

theorem intToString_chars (n : Int) :
    ∀ c ∈ (intToString n).toList,
      c ≠ ',' ∧ c ≠ '¥' ∧ c.isWhitespace = false := by
  intro c hc
  rw [intToString] at hc
  by_cases hn : n < 0
  · rw [if_pos hn] at hc
    have htl : ("-" ++ natToString n.natAbs).toList = '-' :: natToChars n.natAbs := rfl
    rw [htl] at hc
    rcases List.mem_cons.mp hc with h | h
    · subst h; exact ⟨by decide, by decide, by decide⟩
    · obtain ⟨d, hd, rfl⟩ := natToChars_mem _ c h
      have hp := digitChar_props d hd
      exact ⟨hp.2.2.2.2.2.1, hp.2.2.2.2.2.2, hp.2.2.1⟩
  · rw [if_neg hn, toList_natToString] at hc
    obtain ⟨d, hd, rfl⟩ := natToChars_mem _ c hc
    have hp := digitChar_props d hd
    exact ⟨hp.2.2.2.2.2.1, hp.2.2.2.2.2.2, hp.2.2.1⟩

/-- Normalizing an integer (an already-normalized amount run through
`str(...)` again) returns that integer unchanged. -/
theorem normalize_total_amount_int (n : Int) :
    normalize_total_amount (.int n) = some n := by
  rw [normalize_total_amount]
  have hchars := intToString_chars n
  have h1 : (pyStr (.int n)).toList.filter (fun c => c ≠ ',') =
      (intToString n).toList := by
    apply List.filter_eq_self.mpr
    intro c hc
    exact decide_eq_true (hchars c hc).1
  rw [h1]
  have h2 : (intToString n).toList.filter (fun c => c ≠ '¥') =
      (intToString n).toList := by
    apply List.filter_eq_self.mpr
    intro c hc
    exact decide_eq_true (hchars c hc).2.1
  rw [h2]
  rw [pyStrip_eq_self _ (fun c hc => (hchars c hc).2.2)]
  rw [mk_toList]
  exact pyIntParse_intToString n

/-- C6: the record-update amount normalization maps `"¥1,234"` to the
integer 1234 (stored on the record), re-normalizing an already-normalized
integer amount yields the same integer (idempotence), and a value that
fails to parse is rejected with the 400 validation error, leaving the
state unchanged. -/
theorem c6_amount_normalization :
    (∀ (st : SysState) (u rid : String) (doc : RecordDoc) (data : UpdateData),
      st.db.getRecord u rid = some doc →
      data.total_amount = some (.str "¥1,234") →
      update_record u rid data st =
        (.updated (some 1234),
         { st with db :=
            (st.db.setRecord u rid (applyRecordUpdate doc data (some 1234))) })) ∧
    (∀ n : Int, normalize_total_amount (.int n) = some n) ∧
    (∀ (st : SysState) (u rid : String) (doc : RecordDoc) (data : UpdateData)
      (v : PyVal),
      st.db.getRecord u rid = some doc →
      data.total_amount = some v →
      normalize_total_amount v = none →
      update_record u rid data st =
        (.httpError 400 "金額は数値で指定してください", st)) := by
  refine ⟨?_, normalize_total_amount_int, ?_⟩
  · intro st u rid doc data hdoc hdata
    simp only [update_record, hdoc, hdata]
    rw [show normalize_total_amount (PyVal.str "¥1,234") = some 1234 from by decide]
  · intro st u rid doc data v hdoc hdata hnorm
    simp only [update_record, hdoc, hdata, hnorm]

/-- C6 witness: a concrete record updated with `"¥1,234"` stores 1234,
`normalize(1234) = 1234`, and `"abc"` yields the 400 error with the state
unchanged. -/
theorem c6_amount_normalization_witness :
    update_record "u1" "r1" ⟨none, none, some (.str "¥1,234"), none⟩
      ⟨DB.mk [("u1", ⟨some ⟨some 1, some 10⟩⟩)]
        [("u1", [("r1", ⟨"2024-01-01", "ACME", 999, "", "r1", false, [],
          "a.jpg", "その他", "web"⟩)])], 0, [], [], []⟩ =
      (.updated (some 1234),
       { db := (DB.mk [("u1", ⟨some ⟨some 1, some 10⟩⟩)]
          [("u1", [("r1", ⟨"2024-01-01", "ACME", 999, "", "r1", false, [],
            "a.jpg", "その他", "web"⟩)])]).setRecord "u1" "r1"
          (applyRecordUpdate
            ⟨"2024-01-01", "ACME", 999, "", "r1", false, [], "a.jpg", "その他", "web"⟩
            ⟨none, none, some (.str "¥1,234"), none⟩ (some 1234)),
         clock := 0, blobs := [], gcsDeletes := [], persistLog := [] }) ∧
    normalize_total_amount (.int 1234) = some 1234 ∧
    update_record "u1" "r1" ⟨none, none, some (.str "abc"), none⟩
      ⟨DB.mk [("u1", ⟨some ⟨some 1, some 10⟩⟩)]
        [("u1", [("r1", ⟨"2024-01-01", "ACME", 999, "", "r1", false, [],
          "a.jpg", "その他", "web"⟩)])], 0, [], [], []⟩ =
      (.httpError 400 "金額は数値で指定してください",
       ⟨DB.mk [("u1", ⟨some ⟨some 1, some 10⟩⟩)]
        [("u1", [("r1", ⟨"2024-01-01", "ACME", 999, "", "r1", false, [],
          "a.jpg", "その他", "web"⟩)])], 0, [], [], []⟩) := by
  refine ⟨?_, c6_amount_normalization.2.1 1234, ?_⟩
  · exact c6_amount_normalization.1 _ "u1" "r1"
      ⟨"2024-01-01", "ACME", 999, "", "r1", false, [], "a.jpg", "その他", "web"⟩
      ⟨none, none, some (.str "¥1,234"), none⟩ (by decide) rfl
  · exact c6_amount_normalization.2.2 _ "u1" "r1"
      ⟨"2024-01-01", "ACME", 999, "", "r1", false, [], "a.jpg", "その他", "web"⟩
      ⟨none, none, some (.str "abc"), none⟩ (.str "abc") (by decide) rfl (by decide)

theorem retryAux_success_aux (oracle : Nat → Except String GeminiValue)
    (max_retries i : Nat) (v : GeminiValue) :
    ∀ (f attempt : Nat), f = max_retries - attempt →
      attempt ≤ i → i < max_retries →
      (∀ j, attempt ≤ j → j < i → ∃ e, oracle j = .error e) →
      oracle i = .ok v →
      retryAux oracle max_retries attempt f =
        (.success v, (List.range' attempt (i - attempt)).map (fun j => 2 ^ j)) := by
  intro f
  induction f with
  | zero => intro attempt hf hai him _ _; omega
  | succ f ih =>
    intro attempt hf hai him hfail hok
    by_cases hate : attempt = i
    · subst hate
      rw [retryAux, hok]
      simp [Nat.sub_self]
    · have halt : attempt < i := lt_of_le_of_ne hai hate
      obtain ⟨e, he⟩ := hfail attempt le_rfl halt
      rw [retryAux, he]
      dsimp only
      have hcond : attempt < max_retries - 1 := by omega
      rw [if_pos hcond]
      have hrec := ih (attempt + 1) (by omega) halt him
        (fun j hj1 hj2 => hfail j (by omega) hj2) hok
      rw [hrec]
      obtain ⟨k, hk⟩ : ∃ k, i - attempt = k + 1 := ⟨i - attempt - 1, by omega⟩
      rw [hk]
      have hk2 : i - (attempt + 1) = k := by omega
      rw [hk2]
      rfl

theorem retryAux_allfail_aux (oracle : Nat → Except String GeminiValue)
    (max_retries : Nat) :
    ∀ (f attempt : Nat), f = max_retries - attempt →
      attempt < max_retries →
      (∀ j, attempt ≤ j → j < max_retries → ∃ e, oracle j = .error e) →
      ∃ e, oracle (max_retries - 1) = .error e ∧
        retryAux oracle max_retries attempt f =
          (.failure ("Gemini API解析に失敗しました（" ++ natToString max_retries
            ++ "回試行）: " ++ e),
           (List.range' attempt (max_retries - 1 - attempt)).map (fun j => 2 ^ j)) := by
  intro f
  induction f with
  | zero => intro attempt hf ham _; omega
  | succ f ih =>
    intro attempt hf ham hfail
    by_cases hlast : attempt = max_retries - 1
    · obtain ⟨e, he⟩ := hfail attempt le_rfl ham
      refine ⟨e, hlast ▸ he, ?_⟩
      rw [retryAux, he]
      dsimp only
      rw [if_neg (by omega)]
      have hz : max_retries - 1 - attempt = 0 := by omega
      rw [hz]
      rfl
    · have hcond : attempt < max_retries - 1 := by omega
      obtain ⟨e0, he0⟩ := hfail attempt le_rfl ham
      obtain ⟨e, he, heq⟩ := ih (attempt + 1) (by omega) (by omega)
        (fun j hj1 hj2 => hfail j (by omega) hj2)
      refine ⟨e, he, ?_⟩
      rw [retryAux, he0]
      dsimp only
      rw [if_pos hcond, heq]
      obtain ⟨k, hk⟩ : ∃ k, max_retries - 1 - attempt = k + 1 :=
        ⟨max_retries - 1 - attempt - 1, by omega⟩
      rw [hk]
      have hk2 : max_retries - 1 - (attempt + 1) = k := by omega
      rw [hk2]
      rfl

/-- C7: the extraction client makes its attempts in order; the first
successful attempt returns its value immediately (the sleeps performed are
exactly `2^0, 2^1, ...` between the preceding failed attempts); when all
`max_retries` attempts fail it raises the classified extraction failure
carrying the last underlying error, after sleeping `1, 2, 4, ...` seconds
between consecutive attempts. -/
theorem c7_extraction_retry (oracle : Nat → Except String GeminiValue)
    (max_retries : Nat) :
    (∀ (i : Nat) (v : GeminiValue),
      i < max_retries →
      (∀ j, j < i → ∃ e, oracle j = .error e) →
      oracle i = .ok v →
      analyze_with_gemini_retry oracle max_retries =
        (.success v, (List.range i).map (fun j => 2 ^ j))) ∧
    ((∀ j, j < max_retries → ∃ e, oracle j = .error e) →
      0 < max_retries →
      ∃ e, oracle (max_retries - 1) = .error e ∧
        analyze_with_gemini_retry oracle max_retries =
          (.failure ("Gemini API解析に失敗しました（" ++ natToString max_retries
            ++ "回試行）: " ++ e),
           (List.range (max_retries - 1)).map (fun j => 2 ^ j))) := by
  constructor
  · intro i v him hfail hok
    rw [analyze_with_gemini_retry]
    have h := retryAux_success_aux oracle max_retries i v max_retries 0
      (by omega) (by omega) him (fun j _ hj2 => hfail j hj2) hok
    rw [h, List.range_eq_range']
    simp
  · intro hfail hpos
    obtain ⟨e, he, heq⟩ := retryAux_allfail_aux oracle max_retries max_retries 0
      (by omega) hpos (fun j _ hj2 => hfail j hj2)
    refine ⟨e, he, ?_⟩
    rw [analyze_with_gemini_retry, heq, List.range_eq_range']
    simp

/-- C7 witness: with three attempts, an oracle succeeding at attempt 1
returns after one 1-second sleep; an oracle that always fails yields the
classified failure carrying the last error after sleeping 1 s and 2 s. -/
theorem c7_extraction_retry_witness :
    analyze_with_gemini_retry
      (fun j => if j = 1 then .ok (.arr []) else .error "e0") 3 =
      (.success (.arr []), [1]) ∧
    analyze_with_gemini_retry (fun _ => .error "boom") 3 =
      (.failure ("Gemini API解析に失敗しました（" ++ natToString 3
        ++ "回試行）: boom"), [1, 2]) := by
  constructor
  · have h := (c7_extraction_retry
      (fun j => if j = 1 then .ok (.arr []) else .error "e0") 3).1 1 (.arr [])
      (by norm_num)
      (fun j hj => ⟨"e0", by interval_cases j; rfl⟩) rfl
    rw [h]
    decide
  · obtain ⟨e, he, heq⟩ := (c7_extraction_retry (fun _ => .error "boom") 3).2
      (fun j _ => ⟨"boom", rfl⟩) (by norm_num)
    have he' : e = "boom" := by
      have : Except.error (ε := String) (α := GeminiValue) "boom" = .error e := he
      cases this
      rfl
    subst he'
    rw [heq]
    decide

/-- Concrete state for the C5 evaluation: user `u1` owns record `r1` with
a stored blob; record `nope` does not exist. -/
def c5state : SysState :=
  ⟨DB.mk [("u1", ⟨some ⟨some 5, some 10⟩⟩)]
     [("u1", [("r1", ⟨"2024-01-01", "ACME", 500,
        gcsUrl "receipts/a.jpg", "r1", false, [], "a.jpg", "その他", "web"⟩)])],
   0, ["receipts/a.jpg"], [], []⟩

/-- C5: deleting a non-existent record leaves the whole state unchanged
(no record deleted, no blob delete invoked, quota untouched), but the
response is a 500 — the `HTTPException(404)` raised inside the handler's
`try` is swallowed by its blanket `except Exception` and re-raised as
`HTTPException(500, "削除に失敗しました: 404: レコードが見つかりません")` —
where the claim (and the handler's own explicit `raise`) intends a 404. -/
theorem c5_delete_missing_record_returns_500 :
    delete_record "u1" "nope" c5state =
      (.httpError 500 ("削除に失敗しました: " ++ "404: レコードが見つかりません"),
       c5state) := by
  decide

/-! ## Step lemmas for deletions -/

theorem delete_from_gcs_db (st : SysState) (url : String) :
    (delete_from_gcs st url).1.db = st.db := by
  rw [delete_from_gcs]
  dsimp only
  split
  · split <;> rfl
  · rfl

theorem foldl_delete_from_gcs_db (l : List String) : ∀ st : SysState,
    (l.foldl (fun s url => (delete_from_gcs s url).1) st).db = st.db := by
  induction l with
  | nil => intro st; rfl
  | cons x t ih =>
    intro st
    simp only [List.foldl_cons]
    rw [ih, delete_from_gcs_db]

theorem deleteRecordBlobs_db (st : SysState) (rec : RecordDoc) :
    (deleteRecordBlobs st rec).db = st.db := by
  rw [deleteRecordBlobs]
  split
  · rw [foldl_delete_from_gcs_db]
    split <;> simp [delete_from_gcs_db]
  · split <;> simp [delete_from_gcs_db]

theorem recordsOf_delRecord (db : DB) (u rid : String) :
    (db.delRecord u rid).recordsOf u = aremove (db.recordsOf u) rid := by
  unfold DB.delRecord DB.recordsOf
  simp [alookup_aupsert_self]

theorem getRecord_delRecord_ne (db : DB) (u rid rid' : String) (h : rid' ≠ rid) :
    (db.delRecord u rid).getRecord u rid' = db.getRecord u rid' := by
  unfold DB.getRecord
  rw [recordsOf_delRecord, alookup_aremove_ne _ _ _ h]

theorem users_delRecord (db : DB) (u rid : String) :
    (db.delRecord u rid).users = db.users := rfl

theorem usedOf_eq_of_users (db1 db2 : DB) (u : String)
    (h : db1.users = db2.users) : db1.usedOf u = db2.usedOf u := by
  unfold DB.usedOf
  rw [h]

theorem usedOf_incUsed (db : DB) (u : String) (d : UserDoc) (n : Int)
    (h : alookup db.users u = some d) :
    (db.incUsed u n).usedOf u = db.usedOf u + n := by
  unfold DB.incUsed DB.usedOf
  rw [alookup_aupdate_self, h]
  simp [UserDoc.usedVal]

theorem bulkDeleteLoop_nil (u : String) (st : SysState) (d f : Nat) :
    bulkDeleteLoop u [] st d f = (d, f, st) := rfl

theorem bulkDeleteLoop_cons_some (u rid : String) (rest : List String)
    (st : SysState) (d f : Nat) (rec : RecordDoc)
    (h : st.db.getRecord u rid = some rec) :
    bulkDeleteLoop u (rid :: rest) st d f =
      bulkDeleteLoop u rest
        { deleteRecordBlobs st rec with
          db := ((deleteRecordBlobs st rec).db.delRecord u rid) }
        (d + 1) f := by
  simp only [bulkDeleteLoop, h]

theorem bulkDeleteLoop_cons_none (u rid : String) (rest : List String)
    (st : SysState) (d f : Nat) (h : st.db.getRecord u rid = none) :
    bulkDeleteLoop u (rid :: rest) st d f = bulkDeleteLoop u rest st d f := by
  simp only [bulkDeleteLoop, h]

/-- Concrete state for C4: user `u1` (used = 5) owns records `A` and `C`;
record `B` does not exist. -/
def c4state : SysState :=
  ⟨DB.mk [("u1", ⟨some ⟨some 5, some 10⟩⟩)]
     [("u1", [("A", ⟨"2024-01-01", "A-store", 100, "", "A", false, [],
        "a.jpg", "その他", "web"⟩),
      ("C", ⟨"2024-01-02", "C-store", 300, "", "C", false, [],
        "c.jpg", "その他", "web"⟩)])], 0, [], [], []⟩

/-- C4 counterexample: bulk-deleting `[A, B, C]` where `B` does not exist
reports `deleted = 2` but `failed = 0` — not `failed = 1` as claimed — and
decrements the quota counter by exactly 2 (5 → 3): the loop silently skips
a non-existent id, incrementing neither counter. -/
theorem c4_bulk_delete_counterexample :
    (bulk_delete_records "u1" ["A", "B", "C"] c4state).1 = .result ⟨2, 0⟩ ∧
    ((bulk_delete_records "u1" ["A", "B", "C"] c4state).2).db.usedOf "u1" = 3 ∧
    (bulk_delete_records "u1" ["A", "B", "C"] c4state).1 ≠ .result ⟨2, 1⟩ := by
  decide

/-- C4 (amended): bulk-deleting `[A, B, C]` where `A` and `C` exist and
`B` does not reports `deleted_count = 2` and `failed_count = 0` (the
non-existent record is silently skipped, not counted as failed; the failed
counter only counts datastore/storage exceptions), and the quota counter is
decremented by exactly 2. -/
theorem c4_bulk_delete_missing_record (st : SysState) (u A B C : String)
    (dA dC : RecordDoc) (ud : UserDoc)
    (hAB : A ≠ B) (hBC : B ≠ C) (hAC : A ≠ C)
    (hA : st.db.getRecord u A = some dA)
    (hB : st.db.getRecord u B = none)
    (hC : st.db.getRecord u C = some dC)
    (hu : alookup st.db.users u = some ud) :
    ∃ st', bulk_delete_records u [A, B, C] st = (.result ⟨2, 0⟩, st') ∧
      st'.db.usedOf u = st.db.usedOf u - 2 := by
  have hemp : ([A, B, C] : List String).isEmpty = false := rfl
  simp only [bulk_delete_records, hemp, Bool.false_eq_true, if_false]
  set stA : SysState :=
    { deleteRecordBlobs st dA with
      db := ((deleteRecordBlobs st dA).db.delRecord u A) } with hstA
  have husersA : stA.db.users = st.db.users := by
    rw [hstA]
    show ((deleteRecordBlobs st dA).db.delRecord u A).users = st.db.users
    rw [users_delRecord, deleteRecordBlobs_db]
  have hBA : stA.db.getRecord u B = none := by
    show ((deleteRecordBlobs st dA).db.delRecord u A).getRecord u B = none
    rw [getRecord_delRecord_ne _ _ _ _ (Ne.symm hAB), deleteRecordBlobs_db]
    exact hB
  have hCA : stA.db.getRecord u C = some dC := by
    show ((deleteRecordBlobs st dA).db.delRecord u A).getRecord u C = some dC
    rw [getRecord_delRecord_ne _ _ _ _ (Ne.symm hAC), deleteRecordBlobs_db]
    exact hC
  rw [bulkDeleteLoop_cons_some u A [B, C] st 0 0 dA hA,
    bulkDeleteLoop_cons_none u B [C] stA 1 0 hBA,
    bulkDeleteLoop_cons_some u C [] stA 1 0 dC hCA,
    bulkDeleteLoop_nil]
  set stC : SysState :=
    { deleteRecordBlobs stA dC with
      db := ((deleteRecordBlobs stA dC).db.delRecord u C) } with hstC
  have husersC : stC.db.users = st.db.users := by
    rw [hstC]
    show ((deleteRecordBlobs stA dC).db.delRecord u C).users = st.db.users
    rw [users_delRecord, deleteRecordBlobs_db, husersA]
  refine ⟨_, rfl, ?_⟩
  show (stC.db.incUsed u (-(2 : Nat) : Int)).usedOf u = st.db.usedOf u - 2
  rw [usedOf_incUsed stC.db u ud _ (by rw [husersC]; exact hu)]
  rw [usedOf_eq_of_users stC.db st.db u husersC]
  omega

/-- C4 amended witness: the concrete `[A, B, C]` scenario with `used = 5`
ends with `deleted = 2`, `failed = 0` and `used = 3`. -/
theorem c4_bulk_delete_missing_record_witness :
    ∃ st', bulk_delete_records "u1" ["A", "B", "C"] c4state =
      (.result ⟨2, 0⟩, st') ∧
      st'.db.usedOf "u1" = c4state.db.usedOf "u1" - 2 := by
  exact c4_bulk_delete_missing_record c4state "u1" "A" "B" "C"
    ⟨"2024-01-01", "A-store", 100, "", "A", false, [], "a.jpg", "その他", "web"⟩
    ⟨"2024-01-02", "C-store", 300, "", "C", false, [], "c.jpg", "その他", "web"⟩
    ⟨some ⟨some 5, some 10⟩⟩ (by decide) (by decide) (by decide)
    (by decide) (by decide) (by decide) (by decide)

/-- Concrete state for C8: user `bob` owns one record whose primary image
blob `receipts/x.jpg` is stored in the bucket. -/
def c8state : SysState :=
  ⟨DB.mk [("bob", ⟨some ⟨some 1, some 10⟩⟩)]
     [("bob", [("r1", ⟨"2024-01-01", "ACME", 500,
        gcsUrl "receipts/x.jpg", "r1", false, [], "x.jpg", "その他", "web"⟩)])],
   0, ["receipts/x.jpg"], [], []⟩

/-- C8 counterexample: deleting user `bob` deletes the record documents,
but performs **zero** blob deletions — the record's primary image blob
`receipts/x.jpg` is still stored afterwards, and the `delete_from_gcs`
audit log is still empty — contradicting the claim that blob artifacts are
cascade-deleted. -/
theorem c8_delete_user_counterexample :
    (delete_user "bob" c8state).1 = .ok "ユーザーを削除しました" ∧
    ((delete_user "bob" c8state).2).db.recordsOf "bob" = [] ∧
    ((delete_user "bob" c8state).2).blobs = ["receipts/x.jpg"] ∧
    ((delete_user "bob" c8state).2).gcsDeletes = [] := by
  decide

/-- C8 (amended): deleting a (non-admin, existing) user cascade-deletes
all of that user's record documents and the user document itself — no
record is orphaned — but does **not** delete any blob artifact: the stored
blobs and the blob-deletion audit log are unchanged. -/
theorem c8_delete_user_cascade (st : SysState) (uid : String) (d : UserDoc)
    (hadmin : uid ≠ "admin")
    (hu : alookup st.db.users uid = some d)
    (hnd : (st.db.users.map Prod.fst).Nodup) :
    ∃ st', delete_user uid st = (.ok "ユーザーを削除しました", st') ∧
      st'.db.recordsOf uid = [] ∧
      alookup st'.db.users uid = none ∧
      st'.blobs = st.blobs ∧
      st'.gcsDeletes = st.gcsDeletes := by
  simp only [delete_user, if_neg hadmin, hu]
  refine ⟨_, rfl, ?_, ?_, rfl, rfl⟩
  · show ((DB.mk (aremove st.db.users uid)
      (aupsert st.db.records uid []))).recordsOf uid = []
    unfold DB.recordsOf
    rw [alookup_aupsert_self]
    rfl
  · show alookup (aremove st.db.users uid) uid = none
    exact alookup_aremove_self st.db.users uid hnd

/-- C8 amended witness: the concrete `bob` state — records gone, user doc
gone, blobs and deletion log untouched. -/
theorem c8_delete_user_cascade_witness :
    ∃ st', delete_user "bob" c8state = (.ok "ユーザーを削除しました", st') ∧
      st'.db.recordsOf "bob" = [] ∧
      alookup st'.db.users "bob" = none ∧
      st'.blobs = c8state.blobs ∧
      st'.gcsDeletes = c8state.gcsDeletes := by
  exact c8_delete_user_cascade c8state "bob" ⟨some ⟨some 1, some 10⟩⟩
    (by decide) (by decide) (by decide)

/-! ## Pipeline lemmas -/

/-- 1 for a success entry, 0 for an error entry. -/
def statusSucc : FileStatus → Nat
  | .success _ => 1
  | .error _ => 0

theorem countSuccess_nil : countSuccess [] = 0 := rfl

theorem countErrors_nil : countErrors [] = 0 := rfl

theorem countSuccess_cons (r : FileResult) (rs : List FileResult) :
    countSuccess (r :: rs) = statusSucc r.status + countSuccess rs := by
  unfold countSuccess statusSucc
  cases h : r.status <;> simp [List.filter_cons, h, Nat.add_comm]

theorem countErrors_cons (r : FileResult) (rs : List FileResult) :
    countErrors (r :: rs) = (1 - statusSucc r.status) + countErrors rs := by
  unfold countErrors statusSucc
  cases h : r.status <;> simp [List.filter_cons, h, Nat.add_comm]

theorem countSuccess_add_countErrors (rs : List FileResult) :
    countSuccess rs + countErrors rs = rs.length := by
  induction rs with
  | nil => rfl
  | cons r t ih =>
    rw [countSuccess_cons, countErrors_cons, List.length_cons]
    cases h : r.status <;> simp [statusSucc] <;> omega

theorem upload_to_gcs_db (st : SysState) (n : String) :
    (upload_to_gcs st n).1.db = st.db := rfl

theorem upload_to_gcs_clock (st : SysState) (n : String) :
    (upload_to_gcs st n).1.clock = st.clock := rfl

theorem upload_to_gcs_log (st : SysState) (n : String) :
    (upload_to_gcs st n).1.persistLog = st.persistLog := rfl

theorem foldl_upload_db (l : List String) : ∀ st : SysState,
    (l.foldl (fun s p => (upload_to_gcs s ("pdf_images/" ++ p)).1) st).db = st.db := by
  induction l with
  | nil => intro st; rfl
  | cons x t ih => intro st; simp only [List.foldl_cons]; rw [ih]; rfl

theorem foldl_upload_clock (l : List String) : ∀ st : SysState,
    (l.foldl (fun s p => (upload_to_gcs s ("pdf_images/" ++ p)).1) st).clock =
      st.clock := by
  induction l with
  | nil => intro st; rfl
  | cons x t ih => intro st; simp only [List.foldl_cons]; rw [ih]; rfl

theorem foldl_upload_log (l : List String) : ∀ st : SysState,
    (l.foldl (fun s p => (upload_to_gcs s ("pdf_images/" ++ p)).1) st).persistLog =
      st.persistLog := by
  induction l with
  | nil => intro st; rfl
  | cons x t ih => intro st; simp only [List.foldl_cons]; rw [ih]; rfl

theorem persistItems_users (u pu : String) (ip : Bool) (urls : List String)
    (ofn : String) (sf : Option (Nat × String)) :
    ∀ (l : List ExtractedItem) (k : Nat) (st : SysState),
      (persistItems u pu ip urls ofn sf l k st).1.db.users = st.db.users := by
  intro l
  induction l with
  | nil => intro k st; rfl
  | cons item rest ih =>
    intro k st
    rw [persistItems.eq_def]
    dsimp only
    cases sf with
    | none => exact ih _ _
    | some p =>
      obtain ⟨j, msg⟩ := p
      dsimp only
      by_cases hj : j = k
      · rw [if_pos hj]
      · rw [if_neg hj]
        exact ih _ _

theorem persistItems_log (u pu : String) (ip : Bool) (urls : List String)
    (ofn : String) (sf : Option (Nat × String)) :
    ∀ (l : List ExtractedItem) (k : Nat) (st : SysState),
      st.clock ≤ (persistItems u pu ip urls ofn sf l k st).1.clock ∧
      ∃ ms : List Nat,
        (persistItems u pu ip urls ofn sf l k st).1.persistLog =
          st.persistLog ++ ms.map natToString ∧
        List.Pairwise (· < ·) ms ∧
        ∀ m ∈ ms, st.clock ≤ m ∧ m < (persistItems u pu ip urls ofn sf l k st).1.clock := by
  intro l
  induction l with
  | nil =>
    intro k st
    exact ⟨le_refl _, [], by simp [persistItems], List.Pairwise.nil, by simp⟩
  | cons item rest ih =>
    intro k st
    rw [persistItems.eq_def]
    dsimp only
    cases sf with
    | none =>
      dsimp only
      have hcc : (commitRecord { st with clock := st.clock + 1 } u
          (natToString st.clock)
          (mkRecord item pu (natToString st.clock) ip urls ofn)).clock =
          st.clock + 1 := rfl
      obtain ⟨hcl, ms', hlog, hpw, hb⟩ := ih (k + 1)
        (commitRecord { st with clock := st.clock + 1 } u (natToString st.clock)
          (mkRecord item pu (natToString st.clock) ip urls ofn))
      rw [hcc] at hcl hb
      refine ⟨by omega, st.clock :: ms', ?_, ?_, ?_⟩
      · rw [hlog]
        simp [commitRecord]
      · exact List.pairwise_cons.mpr
          ⟨fun m hm => by have := (hb m hm).1; omega, hpw⟩
      · intro m hm
        rcases List.mem_cons.mp hm with h | h
        · subst h
          exact ⟨le_refl _, by omega⟩
        · exact ⟨by have := (hb m h).1; omega, (hb m h).2⟩
    | some p =>
      obtain ⟨j, msg⟩ := p
      dsimp only
      by_cases hj : j = k
      · rw [if_pos hj]
        exact ⟨Nat.le_succ _, [], by simp, List.Pairwise.nil, by simp⟩
      · rw [if_neg hj]
        have hcc : (commitRecord { st with clock := st.clock + 1 } u
            (natToString st.clock)
            (mkRecord item pu (natToString st.clock) ip urls ofn)).clock =
            st.clock + 1 := rfl
        obtain ⟨hcl, ms', hlog, hpw, hb⟩ := ih (k + 1)
          (commitRecord { st with clock := st.clock + 1 } u (natToString st.clock)
            (mkRecord item pu (natToString st.clock) ip urls ofn))
        rw [hcc] at hcl hb
        refine ⟨by omega, st.clock :: ms', ?_, ?_, ?_⟩
        · rw [hlog]
          simp [commitRecord]
        · exact List.pairwise_cons.mpr
            ⟨fun m hm => by have := (hb m hm).1; omega, hpw⟩
        · intro m hm
          rcases List.mem_cons.mp hm with h | h
          · subst h
            exact ⟨le_refl _, by omega⟩
          · exact ⟨by have := (hb m h).1; omega, (hb m h).2⟩

theorem persistItems_none_iff (u pu : String) (ip : Bool) (urls : List String)
    (ofn : String) (sf : Option (Nat × String)) :
    ∀ (l : List ExtractedItem) (k : Nat) (st : SysState),
      ((persistItems u pu ip urls ofn sf l k st).2 = none ↔
        (match sf with
         | none => True
         | some (j, _) => ¬ (k ≤ j ∧ j < k + l.length))) := by
  intro l
  induction l with
  | nil =>
    intro k st
    cases sf with
    | none => simp [persistItems]
    | some p =>
      obtain ⟨j, msg⟩ := p
      simp [persistItems]
  | cons item rest ih =>
    intro k st
    rw [persistItems.eq_def]
    dsimp only
    cases sf with
    | none => exact ih (k + 1) _
    | some p =>
      obtain ⟨j, msg⟩ := p
      dsimp only
      by_cases hj : j = k
      · rw [if_pos hj]
        subst hj
        simp
      · rw [if_neg hj]
        rw [ih (k + 1) _]
        simp only [List.length_cons]
        omega

theorem persistAndCount_facts (u pu : String) (ip : Bool) (urls : List String)
    (ofn : String) (sf : Option (Nat × String))
    (finc removeTemp : Except String Unit)
    (gval : GeminiValue) (st : SysState) (d : UserDoc)
    (hu : alookup st.db.users u = some d) :
    (∃ d', alookup
      (persistAndCount u pu ip urls ofn sf finc removeTemp gval st).2.db.users u
      = some d') ∧
    (persistAndCount u pu ip urls ofn sf finc removeTemp gval st).2.db.usedOf u =
      st.db.usedOf u +
        (if persistOk sf (itemsOf gval).length && exceptOk finc then (1 : Int)
         else 0) ∧
    statusSucc
      (persistAndCount u pu ip urls ofn sf finc removeTemp gval st).1.status =
      (if (persistOk sf (itemsOf gval).length && exceptOk finc) &&
          exceptOk removeTemp then 1 else 0) ∧
    st.clock ≤
      (persistAndCount u pu ip urls ofn sf finc removeTemp gval st).2.clock ∧
    ∃ ms : List Nat,
      (persistAndCount u pu ip urls ofn sf finc removeTemp gval st).2.persistLog =
        st.persistLog ++ ms.map natToString ∧
      List.Pairwise (· < ·) ms ∧
      ∀ m ∈ ms, st.clock ≤ m ∧
        m < (persistAndCount u pu ip urls ofn sf finc removeTemp gval st).2.clock := by
  have husers := persistItems_users u pu ip urls ofn sf (itemsOf gval) 0 st
  obtain ⟨hcl, ms, hl, hpw, hb⟩ := persistItems_log u pu ip urls ofn sf
    (itemsOf gval) 0 st
  have hup : alookup (persistItems u pu ip urls ofn sf
      (itemsOf gval) 0 st).1.db.users u = some d := by rw [husers]; exact hu
  have hni := persistItems_none_iff u pu ip urls ofn sf (itemsOf gval) 0 st
  rw [persistAndCount.eq_def]
  dsimp only
  split
  · rename_i msg heq
    have hpfail : persistOk sf (itemsOf gval).length = false := by
      rw [heq] at hni
      cases sf with
      | none => simp at hni
      | some p =>
        obtain ⟨j, m2⟩ := p
        simp at hni
        simp [persistOk]
        omega
    refine ⟨⟨d, hup⟩, ?_, ?_, hcl, ms, hl, hpw, hb⟩
    · rw [usedOf_eq_of_users _ st.db u husers]
      simp [hpfail]
    · simp [statusSucc, hpfail]
  · rename_i heq
    have hpok : persistOk sf (itemsOf gval).length = true := by
      rw [heq] at hni
      cases sf with
      | none => rfl
      | some p =>
        obtain ⟨j, m2⟩ := p
        simp at hni
        simp [persistOk]
        omega
    split
    · refine ⟨⟨d, hup⟩, ?_, ?_, hcl, ms, hl, hpw, hb⟩
      · rw [usedOf_eq_of_users _ st.db u husers]
        simp [exceptOk]
      · simp [statusSucc, exceptOk]
    · split
      · refine ⟨⟨UserDoc.mk (some (SubData.mk (some (d.usedVal + 1))
            (d.subscription.bind SubData.limit))), ?_⟩, ?_, ?_, hcl, ms, hl, hpw, hb⟩
        · show alookup ((persistItems u pu ip urls ofn sf
            (itemsOf gval) 0 st).1.db.incUsed u 1).users u =
            some (UserDoc.mk (some (SubData.mk (some (d.usedVal + 1))
              (d.subscription.bind SubData.limit))))
          unfold DB.incUsed
          rw [alookup_aupdate_self, hup]
          rfl
        · show ((persistItems u pu ip urls ofn sf
            (itemsOf gval) 0 st).1.db.incUsed u 1).usedOf u = _
          rw [usedOf_incUsed _ u d 1 hup,
            usedOf_eq_of_users _ st.db u husers]
          simp [hpok, exceptOk]
        · simp [statusSucc, hpok, exceptOk]
      · refine ⟨⟨UserDoc.mk (some (SubData.mk (some (d.usedVal + 1))
            (d.subscription.bind SubData.limit))), ?_⟩, ?_, ?_, hcl, ms, hl, hpw, hb⟩
        · show alookup ((persistItems u pu ip urls ofn sf
            (itemsOf gval) 0 st).1.db.incUsed u 1).users u =
            some (UserDoc.mk (some (SubData.mk (some (d.usedVal + 1))
              (d.subscription.bind SubData.limit))))
          unfold DB.incUsed
          rw [alookup_aupdate_self, hup]
          rfl
        · show ((persistItems u pu ip urls ofn sf
            (itemsOf gval) 0 st).1.db.incUsed u 1).usedOf u = _
          rw [usedOf_incUsed _ u d 1 hup,
            usedOf_eq_of_users _ st.db u husers]
          simp [hpok, exceptOk]
        · simp [statusSucc, hpok, exceptOk]

theorem persistAndCount_facts' (u pu : String) (ip : Bool) (urls : List String)
    (ofn : String) (sf : Option (Nat × String))
    (finc removeTemp : Except String Unit)
    (gval : GeminiValue) (st st0 : SysState) (d : UserDoc)
    (hu : alookup st0.db.users u = some d)
    (hdb : st.db = st0.db) (hck : st.clock = st0.clock)
    (hlg : st.persistLog = st0.persistLog) :
    (∃ d', alookup
      (persistAndCount u pu ip urls ofn sf finc removeTemp gval st).2.db.users u
      = some d') ∧
    (persistAndCount u pu ip urls ofn sf finc removeTemp gval st).2.db.usedOf u =
      st0.db.usedOf u +
        (if persistOk sf (itemsOf gval).length && exceptOk finc then (1 : Int)
         else 0) ∧
    statusSucc
      (persistAndCount u pu ip urls ofn sf finc removeTemp gval st).1.status =
      (if (persistOk sf (itemsOf gval).length && exceptOk finc) &&
          exceptOk removeTemp then 1 else 0) ∧
    st0.clock ≤
      (persistAndCount u pu ip urls ofn sf finc removeTemp gval st).2.clock ∧
    ∃ ms : List Nat,
      (persistAndCount u pu ip urls ofn sf finc removeTemp gval st).2.persistLog =
        st0.persistLog ++ ms.map natToString ∧
      List.Pairwise (· < ·) ms ∧
      ∀ m ∈ ms, st0.clock ≤ m ∧
        m < (persistAndCount u pu ip urls ofn sf finc removeTemp gval st).2.clock := by
  have h := persistAndCount_facts u pu ip urls ofn sf finc removeTemp gval st d
    (by rw [hdb]; exact hu)
  rw [hdb, hck, hlg] at h
  exact h

theorem processFile_facts (u : String) (f : FileInput) (st : SysState)
    (d : UserDoc) (hu : alookup st.db.users u = some d) :
    (∃ d', alookup (processFile u f st).2.db.users u = some d') ∧
    (processFile u f st).2.db.usedOf u =
      st.db.usedOf u + (if fileIncrements f then (1 : Int) else 0) ∧
    statusSucc (processFile u f st).1.status =
      (if fileSucceeds f then 1 else 0) ∧
    st.clock ≤ (processFile u f st).2.clock ∧
    ∃ ms : List Nat,
      (processFile u f st).2.persistLog = st.persistLog ++ ms.map natToString ∧
      List.Pairwise (· < ·) ms ∧
      ∀ m ∈ ms, st.clock ≤ m ∧ m < (processFile u f st).2.clock := by
  rw [processFile.eq_def]
  dsimp only
  cases hsave : f.save with
  | error e =>
    refine ⟨⟨d, hu⟩, ?_, ?_, le_refl _, [], ?_, List.Pairwise.nil, ?_⟩ <;>
      simp [fileIncrements, fileSucceeds, exceptOk, hsave, statusSucc]
  | ok a =>
    cases hupload : f.upload with
    | error e =>
      refine ⟨⟨d, hu⟩, ?_, ?_, le_refl _, [], ?_, List.Pairwise.nil, ?_⟩ <;>
        simp [fileIncrements, fileSucceeds, exceptOk, hsave, hupload, statusSucc]
    | ok b =>
      cases hpdf : strEndsWith (pyLower f.filename) ".pdf" with
      | false =>
        dsimp only
        cases hextract : f.extract with
        | error e =>
          refine ⟨⟨d, ?_⟩, ?_, ?_, ?_, [], ?_, List.Pairwise.nil, ?_⟩ <;>
            simp [upload_to_gcs_db, upload_to_gcs_clock, upload_to_gcs_log,
              fileIncrements, fileSucceeds, exceptOk, hsave, hupload, hextract,
              statusSucc, hu]
        | ok gval =>
          have hfi : fileIncrements f =
              (persistOk f.setFail (itemsOf gval).length && exceptOk f.increment) := by
            simp [fileIncrements, hsave, hupload, hextract, exceptOk]
          have hfs : fileSucceeds f =
              ((persistOk f.setFail (itemsOf gval).length && exceptOk f.increment) &&
                exceptOk f.remove) := by
            simp [fileSucceeds, hfi]
          rw [hfi, hfs]
          exact persistAndCount_facts' u _ false _ f.filename f.setFail
            f.increment f.remove gval _ st d hu rfl rfl rfl
      | true =>
        dsimp only
        cases hextract : f.extract with
        | error e =>
          refine ⟨⟨d, ?_⟩, ?_, ?_, ?_, [], ?_, List.Pairwise.nil, ?_⟩ <;>
            simp [foldl_upload_db, foldl_upload_clock, foldl_upload_log,
              upload_to_gcs_db, upload_to_gcs_clock, upload_to_gcs_log,
              fileIncrements, fileSucceeds, exceptOk, hsave, hupload, hextract,
              statusSucc, hu]
        | ok gval =>
          have hfi : fileIncrements f =
              (persistOk f.setFail (itemsOf gval).length && exceptOk f.increment) := by
            simp [fileIncrements, hsave, hupload, hextract, exceptOk]
          have hfs : fileSucceeds f =
              ((persistOk f.setFail (itemsOf gval).length && exceptOk f.increment) &&
                exceptOk f.remove) := by
            simp [fileSucceeds, hfi]
          rw [hfi, hfs]
          refine persistAndCount_facts' u _ true _ f.filename f.setFail
            f.increment f.remove gval _ st d hu ?_ ?_ ?_ <;>
            simp [foldl_upload_db, foldl_upload_clock, foldl_upload_log,
              upload_to_gcs_db, upload_to_gcs_clock, upload_to_gcs_log]

theorem countIncrements_nil : countIncrements [] = 0 := rfl

theorem countSucceeding_nil : countSucceeding [] = 0 := rfl

theorem countIncrements_cons (f : FileInput) (fs : List FileInput) :
    countIncrements (f :: fs) =
      (if fileIncrements f then 1 else 0) + countIncrements fs := by
  cases hf : fileIncrements f <;>
    simp [countIncrements, List.filter_cons, hf, Nat.add_comm]

theorem countSucceeding_cons (f : FileInput) (fs : List FileInput) :
    countSucceeding (f :: fs) =
      (if fileSucceeds f then 1 else 0) + countSucceeding fs := by
  cases hf : fileSucceeds f <;>
    simp [countSucceeding, List.filter_cons, hf, Nat.add_comm]

theorem countSucceeding_le_countIncrements (files : List FileInput) :
    countSucceeding files ≤ countIncrements files := by
  induction files with
  | nil => exact le_refl _
  | cons f fs ih =>
    rw [countIncrements_cons, countSucceeding_cons]
    cases hf : fileSucceeds f with
    | false => cases hfi : fileIncrements f <;> simp <;> omega
    | true =>
      have hfi : fileIncrements f = true := by
        have := hf
        simp [fileSucceeds] at this
        exact this.1
      rw [hfi]
      simp
      omega

theorem uploadLoop_facts (u : String) : ∀ (files : List FileInput) (st : SysState)
    (d : UserDoc), alookup st.db.users u = some d →
    (uploadLoop u files st).1.length = files.length ∧
    (∃ d', alookup (uploadLoop u files st).2.db.users u = some d') ∧
    (uploadLoop u files st).2.db.usedOf u =
      st.db.usedOf u + (countIncrements files : Int) ∧
    countSuccess (uploadLoop u files st).1 = countSucceeding files ∧
    st.clock ≤ (uploadLoop u files st).2.clock ∧
    ∃ ms : List Nat,
      (uploadLoop u files st).2.persistLog = st.persistLog ++ ms.map natToString ∧
      List.Pairwise (· < ·) ms ∧
      ∀ m ∈ ms, st.clock ≤ m ∧ m < (uploadLoop u files st).2.clock := by
  intro files
  induction files with
  | nil =>
    intro st d hu
    exact ⟨rfl, ⟨d, hu⟩, by simp [uploadLoop, countIncrements_nil],
      by simp [uploadLoop, countSuccess_nil, countSucceeding_nil], le_refl _, [],
      by simp [uploadLoop], List.Pairwise.nil, by simp⟩
  | cons f fs ih =>
    intro st d hu
    obtain ⟨⟨d1, hd1⟩, hused1, hstat1, hck1, ms1, hlog1, hpw1, hb1⟩ :=
      processFile_facts u f st d hu
    obtain ⟨hlen2, hex2, hused2, hcount2, hck2, ms2, hlog2, hpw2, hb2⟩ :=
      ih (processFile u f st).2 d1 hd1
    rw [uploadLoop.eq_def]
    dsimp only
    refine ⟨?_, hex2, ?_, ?_, le_trans hck1 hck2, ms1 ++ ms2, ?_, ?_, ?_⟩
    · simp [hlen2]
    · rw [hused2, hused1, countIncrements_cons]
      cases hfi : fileIncrements f <;> simp [hfi] <;> push_cast <;> ring
    · rw [countSuccess_cons, hstat1, hcount2, countSucceeding_cons]
    · rw [hlog2, hlog1, List.map_append, List.append_assoc]
    · exact List.pairwise_append.mpr
        ⟨hpw1, hpw2, fun x hx y hy => lt_of_lt_of_le (hb1 x hx).2 (hb2 y hy).1⟩
    · intro m hm
      rcases List.mem_append.mp hm with h | h
      · exact ⟨(hb1 m h).1, lt_of_lt_of_le (hb1 m h).2 hck2⟩
      · exact ⟨le_trans hck1 (hb2 m h).1, (hb2 m h).2⟩

/-- Concrete state for C3: user `u1` with `used = 0`, `limit = 10`, no
records, empty blob store. -/
def c3state : SysState :=
  ⟨DB.mk [("u1", ⟨some ⟨some 0, some 10⟩⟩)] [], 0, [], [], []⟩

/-- C3 counterexample: a 1-file batch whose run succeeds through upload,
extraction, persistence and the quota increment, but whose
`os.remove(temp_path)` (records.py line 108 — inside the `try`, *after*
the increment at lines 103–105) raises.  The response then reports 0
successes and 1 error, so the claim's `N − M` is 0, yet the quota counter
was incremented by 1: "incremented by exactly N−M" is false when a
per-file step after the increment fails. -/
theorem c3_remove_failure_counterexample :
    (upload_receipt "u1"
      [⟨"a.jpg", .ok (), .ok (), [], .ok (.obj ⟨"2024-01-01", "ACME", 500⟩),
        none, .ok (), .error "[Errno 2] no such file"⟩] c3state).1 =
      .batch ⟨[⟨"a.jpg", .error "[Errno 2] no such file"⟩], 1, 0, 1⟩ ∧
    ((upload_receipt "u1"
      [⟨"a.jpg", .ok (), .ok (), [], .ok (.obj ⟨"2024-01-01", "ACME", 500⟩),
        none, .ok (), .error "[Errno 2] no such file"⟩] c3state).2).db.usedOf
      "u1" = 1 := by
  decide

/-- C3 (amended): when a non-empty batch is admitted (`used < limit`), the
response reports one entry per file — a failing file never aborts the
others — with `summary.success` and `summary.errors` counting exactly the
success and error entries, and the quota counter is incremented once per
file that completes the counter update (persistence and increment both
succeed), not once per extracted item and not once per success entry: a
file whose `os.remove(temp_path)` then raises is reported as an error but
keeps its increment, so increments can exceed the success count.  Writing
M for the number of files failing at extraction or any step up to and
including the increment, the counter grows by exactly N − M. -/
theorem c3_batch_counts_and_quota_amended (st : SysState) (u : String)
    (d : UserDoc) (files : List FileInput) (hne : files ≠ [])
    (hu : alookup st.db.users u = some d)
    (hadm : d.usedVal < d.limitVal) :
    ∃ resp st', upload_receipt u files st = (.batch resp, st') ∧
      resp.results.length = files.length ∧
      resp.total = files.length ∧
      resp.success = countSuccess resp.results ∧
      resp.errors = countErrors resp.results ∧
      resp.success + resp.errors = files.length ∧
      resp.success = countSucceeding files ∧
      countSucceeding files ≤ countIncrements files ∧
      st'.db.usedOf u = st.db.usedOf u + (countIncrements files : Int) := by
  have hemp : files.isEmpty = false := by
    cases files with
    | nil => exact absurd rfl hne
    | cons f fs => rfl
  have hcheck : check_usage_limit st.db u = true := by
    simp only [check_usage_limit, hu, decide_eq_true_eq]
    exact hadm
  obtain ⟨hlen, hex, hused, hcount, _, _⟩ := uploadLoop_facts u files st d hu
  refine ⟨⟨(uploadLoop u files st).1, files.length,
    countSuccess (uploadLoop u files st).1, countErrors (uploadLoop u files st).1⟩,
    (uploadLoop u files st).2, ?_, hlen, rfl, rfl, rfl, ?_, hcount,
    countSucceeding_le_countIncrements files, hused⟩
  · simp only [upload_receipt, hemp, Bool.false_eq_true, if_false, hcheck, if_true]
  · rw [countSuccess_add_countErrors, hlen]

/-- The batch used by the C3 amended witness: file 1 fully succeeds with a
two-item extraction, file 2 fails extraction, file 3 succeeds through the
increment but fails at temp-file removal. -/
def c3files : List FileInput :=
  [⟨"a.jpg", .ok (), .ok (), [],
    .ok (.arr [⟨"2024-01-01", "A", 1⟩, ⟨"2024-01-02", "B", 2⟩]), none,
    .ok (), .ok ()⟩,
   ⟨"b.jpg", .ok (), .ok (), [], .error "Gemini failed", none, .ok (), .ok ()⟩,
   ⟨"c.jpg", .ok (), .ok (), [], .ok (.obj ⟨"2024-01-03", "C", 3⟩), none,
    .ok (), .error "remove failed"⟩]

/-- C3 amended witness: on the concrete 3-file batch, the response has 3
entries, 1 success and 2 errors, while the quota counter grows by 2 (the
removal-failure file keeps its increment). -/
theorem c3_batch_counts_and_quota_amended_witness :
    ∃ resp st', upload_receipt "u1" c3files c3state = (.batch resp, st') ∧
      resp.results.length = 3 ∧
      resp.total = 3 ∧
      resp.success = countSuccess resp.results ∧
      resp.errors = countErrors resp.results ∧
      resp.success + resp.errors = 3 ∧
      resp.success = countSucceeding c3files ∧
      countSucceeding c3files ≤ countIncrements c3files ∧
      st'.db.usedOf "u1" = c3state.db.usedOf "u1" + (countIncrements c3files : Int) := by
  exact c3_batch_counts_and_quota_amended c3state "u1" ⟨some ⟨some 0, some 10⟩⟩
    c3files (by intro hx; simp [c3files] at hx) (by decide) (by decide)

/-- C9: every record id handed to Firestore during one upload call is
distinct from every other id generated in that call: the ids appended to
the persistence audit log form a duplicate-free block, because each
generation reads the millisecond clock and the `time.sleep(0.001)` between
generations makes the readings strictly increase. -/
theorem c9_ingestion_ids_unique (st : SysState) (u : String)
    (files : List FileInput) :
    ∃ new : List String,
      ((upload_receipt u files st).2).persistLog = st.persistLog ++ new ∧
      new.Nodup := by
  cases hemp : files.isEmpty with
  | true =>
    refine ⟨[], ?_, List.nodup_nil⟩
    simp [upload_receipt, hemp]
  | false =>
    cases hcheck : check_usage_limit st.db u with
    | false =>
      refine ⟨[], ?_, List.nodup_nil⟩
      simp [upload_receipt, hemp, hcheck]
    | true =>
      obtain ⟨d, hd⟩ : ∃ d, alookup st.db.users u = some d := by
        cases h : alookup st.db.users u with
        | none => rw [check_usage_limit, h] at hcheck; cases hcheck
        | some d => exact ⟨d, rfl⟩
      obtain ⟨_, _, _, _, _, ms, hlog, hpw, _⟩ := uploadLoop_facts u files st d hd
      refine ⟨ms.map natToString, ?_, ?_⟩
      · simp only [upload_receipt, hemp, Bool.false_eq_true, if_false,
          hcheck, if_true]
        exact hlog
      · exact List.Nodup.map natToString_injective
          (hpw.imp fun h => Nat.ne_of_lt h)
